import Mathlib

/-!
# AI formations: offset geometry, follower membership and the follower controller

A shallow embedding of `AIFormation` (AIFormations.h / AIFormations.cpp), of the settings
lookup of `AIFormationMgr` and of `FormationMovementGenerator` (FormationMovementGenerator.cpp).

Conventions of the embedding.

* `float` values live in an arbitrary linearly ordered field `F` with a floor function
  (instantiated with `ℚ` for evaluation and with `ℝ` for the trigonometric topologies);
  float arithmetic is read as exact arithmetic, rounding is not represented. The one division
  whose divisor can be zero, the quotient `distance / travelDist` of the follower controller,
  yields a `FloatValue`: a number, an infinity or NaN.
* `std::cos`, `std::sin`, `M_PI` and `frand` are supplied by a `Libm F` record; `float_M_PI`
  is the value of the constant `float(M_PI)` the code uses, which lies above pi.
* `ObjectGuid` is a natural number; `ObjectGuid::Empty` is `none` where a guid is optional.
* Follower counts are the size of an in-memory `std::vector`, indices are positions in it;
  they are natural numbers (a count is taken to fit the `uint32` and the `float` the geometry
  converts it to). The sum `targetFormationIndex + 1` of the geometry is computed in
  `uint32`: it is reduced modulo `2^32`. The `uint8 multiplier` of the side-by-side shape is
  reduced modulo `2^8`.
* `std::sort` is an arbitrary function meeting the contract of `std::sort`
  (`StdSort`): its result is a permutation of its input in which no later element compares
  less than an earlier one. Nothing else is assumed about the order of equivalent elements.
  `libstdcxxStdSort` is the `std::sort` of libstdc++ (introsort with an insertion-sort
  threshold of 16); the concrete runs use it.
* `ASSERT_NOTNULL` failing aborts the process: the operations return `Option`, `none` being
  the abort.
* The movement timer of the formation is an `int32` and elapsed times are `uint32`, as
  declared in AIFormations.h: `toInt32` stores a result back into the timer. The countdowns of
  the follower controller are declared in a header that is not among the sources; they are
  integers.
* What the controller calls in the actor model and the motion subsystem (angles, distances,
  collision-aware projection, speeds, flag masks) is supplied by a `MotionEnv F` record and
  by the `Leader` and `Follower` records.
-/

namespace AIFormations

/-- Object identity (`ObjectGuid`). -/
abbrev ObjectGuid := Nat

/-- The `Position` record: two planar coordinates, height and orientation. -/
structure Position (F : Type) where
  m_positionX : F
  m_positionY : F
  m_positionZ : F
  m_orientation : F
deriving DecidableEq, Repr

/-- The default-constructed `Position()`: every component `0`. -/
def Position.origin {F : Type} [Zero F] : Position F := ⟨0, 0, 0, 0⟩

/-- Modelled from the spec: `Position::RelocateOffset` is declared outside the sources at hand.
It is only ever applied to the default-constructed position (orientation `0`), where the
relocation is the plain displacement by the components of its argument. -/
def Position.RelocateOffset {F : Type} [Add F] (p off : Position F) : Position F :=
  ⟨p.m_positionX + off.m_positionX, p.m_positionY + off.m_positionY,
   p.m_positionZ + off.m_positionZ, p.m_orientation + off.m_orientation⟩

/-- The numeric values of `enum class AIFormationType : uint8`. The tag is kept as a number
because the constructor casts a stored byte to the enumeration without a range check. -/
abbrev AIFormationType := Nat

def AIFormationType.Random : AIFormationType := 0
def AIFormationType.SingleFile : AIFormationType := 1
def AIFormationType.SideBySide : AIFormationType := 2
def AIFormationType.LikeGeese : AIFormationType := 3
def AIFormationType.FannedOutBehindLeader : AIFormationType := 4
def AIFormationType.FannedOutInFrontOfLeader : AIFormationType := 5
def AIFormationType.CircleLeader : AIFormationType := 6
def AIFormationType.Marching : AIFormationType := 7
def AIFormationType.GridBehindLeader : AIFormationType := 8

/-- The record `struct FormationFollower`. -/
structure FormationFollower (F : Type) where
  GUID : ObjectGuid
  FormationPosition : Nat
  FormationOffsets : Position F
deriving DecidableEq, Repr

/-- The constructor `FormationFollower(guid, formationPosition)`: the offsets are the
default-constructed position. -/
def FormationFollower.new {F : Type} [Zero F] (guid : ObjectGuid) (formationPosition : Nat) :
    FormationFollower F :=
  ⟨guid, formationPosition, Position.origin⟩

/-- The data members of `class AIFormation`. -/
structure AIFormation (F : Type) where
  _owner : ObjectGuid
  _followerData : List (FormationFollower F)
  _formationType : AIFormationType
  _formationRadius : F
  _formationMovementTimer : Int
  _formationMovementInterval : Nat

/-- The library functions the geometry calls: `std::cos`, `std::sin`, the constant `M_PI`,
and `frand`, whose `k`-th call with bounds `lo hi` returns `frand k lo hi`. -/
structure Libm (F : Type) where
  cos : F → F
  sin : F → F
  M_PI : F
  frand : Nat → F → F → F

section Geometry

variable {F : Type} [LinearOrderedField F] [FloorRing F]

/-- `AIFormation::CalculateFormationOffsets`. The second argument and the second component of
the result are the number of `frand` calls made so far. `_followerData.size()` is the length
of the record list. `targetFormationIndex` is a `uint32`, so `targetFormationIndex + 1` is
computed modulo `2^32` before it is converted to `float`. In the side-by-side branch the value
of `std::ceil` is stored in a `uint8`: it is reduced modulo `2^8` (the conversion of a float
that does not fit is left undefined by the language; the low byte is what the usual targets
keep). -/
def CalculateFormationOffsets (m : Libm F) (f : AIFormation F) (rng : Nat)
    (targetFormationIndex : Nat) : Position F × Nat :=
  let offset : Position F := Position.origin
  match f._formationType with
  | 0 =>
    (offset.RelocateOffset
      ⟨m.frand rng (-f._formationRadius) f._formationRadius,
       m.frand (rng + 1) (-f._formationRadius) f._formationRadius, 0, 0⟩, rng + 2)
  | 1 =>
    (offset.RelocateOffset
      ⟨-f._formationRadius * (((targetFormationIndex + 1) % 2 ^ 32 : Nat) : F), 0, 0, 0⟩, rng)
  | 2 =>
    let left : Bool := (targetFormationIndex + 1) % 2 ^ 32 % 2 != 0
    let multiplier : Nat := ⌈((((targetFormationIndex + 1) % 2 ^ 32 : Nat) : F) / 2)⌉₊ % 256
    let distanceOffset : F :=
      (if left then f._formationRadius else -f._formationRadius) * (multiplier : F)
    (offset.RelocateOffset ⟨0, distanceOffset, 0, 0⟩, rng)
  | 3 => (offset, rng)
  | 4 | 5 =>
    let divider : Nat :=
      if f._followerData.length ≤ 2 then f._followerData.length
      else max 3 (f._followerData.length - 1)
    let circleSteps : F := m.M_PI / (divider : F)
    let xOffset : F :=
      m.cos (m.M_PI / 2 + circleSteps * (targetFormationIndex : F)) * f._formationRadius
    let yOffset : F :=
      m.sin (m.M_PI / 2 + circleSteps * (targetFormationIndex : F)) * f._formationRadius
    ({ offset with
        m_positionX :=
          if f._formationType = AIFormationType.FannedOutBehindLeader then xOffset else -xOffset
        m_positionY := yOffset }, rng)
  | 6 =>
    let circleSteps : F := (m.M_PI * 2) / (f._followerData.length : F)
    ({ offset with
        m_positionX := m.cos (circleSteps * (targetFormationIndex : F)) * f._formationRadius
        m_positionY := m.sin (circleSteps * (targetFormationIndex : F)) * f._formationRadius },
     rng)
  | 7 => (offset, rng)
  | 8 => (offset, rng)
  | _ => (offset, rng)

end Geometry

/-! ## The units a formation talks to -/

/-- What the idle motion slot (`MOTION_SLOT_IDLE`) of a unit holds: a
`FormationMovementGenerator` (type `FORMATION_MOTION_TYPE`) with its leader and offset, or a
generator of any other type. -/
inductive MovementGenerator (F : Type) where
  | formation (leader : ObjectGuid) (formationOffset : Position F)
  | other
deriving DecidableEq, Repr

/-- The part of a `Unit` the formation reads and writes. -/
structure Unit (F : Type) where
  isCreature : Bool
  idleSlot : Option (MovementGenerator F)
  formationLeaderGUID : Option ObjectGuid
deriving DecidableEq, Repr

/-- Calls that leave the formation, recorded in order: an entry into
`UpdateFormationOffsetsForAllFollowers`, an evaluation of `CalculateFormationOffsets` (with the
index and the follower count it saw), and a `MoveFormation` request. -/
inductive Event (F : Type) where
  | recompute
  | calculate (index count : Nat)
  | moveFormation (follower leader : ObjectGuid) (offset : Position F)
deriving DecidableEq, Repr

/-- A formation together with its surroundings: the units `ObjectAccessor::GetUnit` resolves,
the number of `frand` calls made so far, and the record of calls. -/
structure State (F : Type) where
  formation : AIFormation F
  units : ObjectGuid → Option (Unit F)
  rng : Nat
  trace : List (Event F)

/-- The contract of `std::sort` for the comparison of
`UpdateFormationOffsetsForAllFollowers` (`previous.FormationPosition < next.FormationPosition`):
the result is a permutation of the input and no element compares less than one before it. -/
structure StdSort (F : Type) where
  sort : List (FormationFollower F) → List (FormationFollower F)
  perm : ∀ l, (sort l).Perm l
  sorted : ∀ l, (sort l).Pairwise (fun a b => ¬ b.FormationPosition < a.FormationPosition)

section Operations

variable {F : Type} [LinearOrderedField F] [FloorRing F]

/-- `FormationMovementGenerator::SetFormationOffset` reached through the guards of
`UpdateFormationOffsetsForAllFollowers`: the offset is stored only when the idle slot holds a
generator of formation type. -/
def Unit.pushFormationOffset (u : Unit F) (offset : Position F) : Unit F :=
  match u.idleSlot with
  | some (MovementGenerator.formation leader _) =>
    { u with idleSlot := some (MovementGenerator.formation leader offset) }
  | _ => u

/-- The range-based loop of `UpdateFormationOffsetsForAllFollowers` over the sorted records,
`followerIndex` counting from the second argument. -/
def assignOffsets (m : Libm F) (f : AIFormation F) :
    List (FormationFollower F) → Nat → State F → Option (List (FormationFollower F) × State F)
  | [], _, s => some ([], s)
  | followerData :: rest, followerIndex, s =>
    let r := CalculateFormationOffsets m f s.rng followerIndex
    let s1 : State F :=
      { s with rng := r.2
               trace := s.trace ++ [Event.calculate followerIndex f._followerData.length] }
    match s1.units followerData.GUID with
    | none => none
    | some follower =>
      let s2 : State F :=
        { s1 with units :=
            Function.update s1.units followerData.GUID (some (follower.pushFormationOffset r.1)) }
      match assignOffsets m f rest (followerIndex + 1) s2 with
      | none => none
      | some (rest', s3) => some ({ followerData with FormationOffsets := r.1 } :: rest', s3)

/-- `AIFormation::UpdateFormationOffsetsForAllFollowers`. -/
def UpdateFormationOffsetsForAllFollowers (srt : StdSort F) (m : Libm F) (s : State F) :
    Option (State F) :=
  let f1 : AIFormation F := { s.formation with _followerData := srt.sort s.formation._followerData }
  let s1 : State F := { s with formation := f1, trace := s.trace ++ [Event.recompute] }
  match assignOffsets m f1 f1._followerData 0 s1 with
  | none => none
  | some (data, s2) => some { s2 with formation := { f1 with _followerData := data } }

/-- Modelled from the spec: `MotionMaster::MoveFormation` is declared outside the sources at
hand. It installs a formation movement controller for the given leader and offset into the
idle slot of the follower. -/
def Unit.MoveFormation (u : Unit F) (leader : ObjectGuid) (offset : Position F) : Unit F :=
  { u with idleSlot := some (MovementGenerator.formation leader offset) }

/-- `AIFormation::AddFollower`. `formationFollower` is a reference to the last slot of the
vector, taken before the sort; the sort permutes the records in place, so when the reference is
read it denotes the record standing in the last slot of the sorted vector. -/
def AddFollower (srt : StdSort F) (m : Libm F) (s : State F) (follower : ObjectGuid)
    (formationPosition : Nat) : Option (State F) :=
  let f1 : AIFormation F :=
    { s.formation with
      _followerData := s.formation._followerData ++ [FormationFollower.new follower formationPosition] }
  match UpdateFormationOffsetsForAllFollowers srt m { s with formation := f1 } with
  | none => none
  | some s2 =>
    match s2.formation._followerData.getLast?, s2.units follower with
    | some formationFollower, some u =>
      let u1 := u.MoveFormation s2.formation._owner formationFollower.FormationOffsets
      let u2 : Unit F :=
        if u1.isCreature then { u1 with formationLeaderGUID := some s2.formation._owner } else u1
      some { s2 with
        units := Function.update s2.units follower (some u2)
        trace := s2.trace ++
          [Event.moveFormation follower s2.formation._owner formationFollower.FormationOffsets] }
    | _, _ => none

/-- The body of the `if (Unit* follower = ObjectAccessor::GetUnit(...))` block of
`RemoveFollower`: clear the idle slot when it holds a formation generator, and reset the leader
guid of a creature. -/
def Unit.leaveFormation (u : Unit F) : Unit F :=
  let u1 : Unit F :=
    match u.idleSlot with
    | some (MovementGenerator.formation _ _) => { u with idleSlot := none }
    | _ => u
  if u1.isCreature then { u1 with formationLeaderGUID := none } else u1

/-- `AIFormation::RemoveFollower`. The parameter is used only through `follower->GetGUID()`. -/
def RemoveFollower (srt : StdSort F) (m : Libm F) (s : State F) (follower : ObjectGuid) :
    Option (State F) :=
  match s.formation._followerData.find? (fun itr => itr.GUID == follower) with
  | none => some s
  | some itr =>
    let units1 : ObjectGuid → Option (Unit F) :=
      match s.units itr.GUID with
      | some u => Function.update s.units itr.GUID (some u.leaveFormation)
      | none => s.units
    let data := s.formation._followerData.eraseP (fun itr => itr.GUID == follower)
    let s1 : State F :=
      { s with formation := { s.formation with _followerData := data }, units := units1 }
    if data.isEmpty then some s1 else UpdateFormationOffsetsForAllFollowers srt m s1

end Operations

/-! ## Auxiliary definitions for the statements -/

/-- The divisor of the fanned-out shapes: `n` when `n <= 2`, else `max(3, n - 1)`. -/
def fanDivider (n : Nat) : Nat := if n ≤ 2 then n else max 3 (n - 1)

section Auxiliary

variable {F : Type} [LinearOrderedField F] [FloorRing F]

/-- The records of a list with the offsets the loop of
`UpdateFormationOffsetsForAllFollowers` assigns them: the record in slot `j` of the list gets
`CalculateFormationOffsets (followerIndex + j)`, the `frand` counter being threaded along. -/
def offsetsFrom (m : Libm F) (f : AIFormation F) :
    List (FormationFollower F) → Nat → Nat → List (FormationFollower F)
  | [], _, _ => []
  | followerData :: rest, followerIndex, rng =>
    { followerData with
      FormationOffsets := (CalculateFormationOffsets m f rng followerIndex).1 }
      :: offsetsFrom m f rest (followerIndex + 1) (CalculateFormationOffsets m f rng followerIndex).2

/-- The formation after a completed recomputation: the records sorted by `std::sort`, each
holding the offset of its slot. -/
def recomputed (srt : StdSort F) (m : Libm F) (f : AIFormation F) (rng : Nat) : AIFormation F :=
  { f with _followerData := offsetsFrom m f (srt.sort f._followerData) 0 rng }

/-- Identity of a membership record: who the member is and where it wants to stand. -/
def FormationFollower.key (a : FormationFollower F) : ObjectGuid × Nat :=
  (a.GUID, a.FormationPosition)

/-- The order `std::sort` is asked to establish: ascending `FormationPosition`. -/
def FormationFollower.le (a b : FormationFollower F) : Prop :=
  a.FormationPosition ≤ b.FormationPosition

instance FormationFollower.decidableLe :
    DecidableRel (FormationFollower.le : FormationFollower F → FormationFollower F → Prop) :=
  fun a b => inferInstanceAs (Decidable (a.FormationPosition ≤ b.FormationPosition))

instance FormationFollower.isTotalLe :
    IsTotal (FormationFollower F) FormationFollower.le :=
  ⟨fun a b => Nat.le_total a.FormationPosition b.FormationPosition⟩

instance FormationFollower.isTransLe :
    IsTrans (FormationFollower F) FormationFollower.le :=
  ⟨fun _ _ _ hab hbc => Nat.le_trans hab hbc⟩

/-- A sort meeting the `std::sort` contract that keeps equivalent records in their order:
insertion sort. -/
def insertionStdSort : StdSort F where
  sort l := l.insertionSort FormationFollower.le
  perm l := List.perm_insertionSort FormationFollower.le l
  sorted l :=
    List.Pairwise.imp (fun h => Nat.not_lt.mpr h)
      (List.sorted_insertionSort FormationFollower.le l)

/-! ### The `std::sort` of libstdc++ (bits/stl_algo.h)

The vector is a list, an iterator is an index into it. A comparison reads `false` and a swap
does nothing where an index is outside the vector. -/

/-- The comparison `__comp(i, j)` of the elements two iterators point to. -/
def compAt {α : Type} (comp : α → α → Bool) (l : List α) (i j : Nat) : Bool :=
  match l[i]?, l[j]? with
  | some a, some b => comp a b
  | _, _ => false

/-- `std::iter_swap(i, j)`. -/
def iter_swap {α : Type} (l : List α) (i j : Nat) : List α :=
  match l[i]?, l[j]? with
  | some a, some b => (l.set i b).set j a
  | _, _ => l

/-- `std::__move_median_to_first(result, a, b, c, comp)`: swaps the median of the elements at
`a`, `b` and `c` to `result`. -/
def move_median_to_first {α : Type} (comp : α → α → Bool) (l : List α) (result a b c : Nat) :
    List α :=
  if compAt comp l a b then
    if compAt comp l b c then iter_swap l result b
    else if compAt comp l a c then iter_swap l result c
    else iter_swap l result a
  else if compAt comp l a c then iter_swap l result a
  else if compAt comp l b c then iter_swap l result c
  else iter_swap l result b

/-- The loop `while (__comp(__first, __pivot)) ++__first;` of `__unguarded_partition`, with
fuel. -/
def scanUp {α : Type} (comp : α → α → Bool) (l : List α) (pivot : Nat) : Nat → Nat → Nat
  | 0, first => first
  | fuel + 1, first =>
    if compAt comp l first pivot then scanUp comp l pivot fuel (first + 1) else first

/-- The loop `while (__comp(__pivot, __last)) --__last;` of `__unguarded_partition`, with
fuel. -/
def scanDown {α : Type} (comp : α → α → Bool) (l : List α) (pivot : Nat) : Nat → Nat → Nat
  | 0, last => last
  | fuel + 1, last =>
    if compAt comp l pivot last then scanDown comp l pivot fuel (last - 1) else last

/-- `std::__unguarded_partition(first, last, pivot, comp)`, with fuel for its outer loop: the
vector afterwards and the iterator returned. -/
def unguarded_partition {α : Type} (comp : α → α → Bool) :
    Nat → List α → Nat → Nat → Nat → List α × Nat
  | 0, l, first, _, _ => (l, first)
  | fuel + 1, l, first, last, pivot =>
    let first1 := scanUp comp l pivot l.length first
    let last1 := scanDown comp l pivot l.length (last - 1)
    if !(first1 < last1) then (l, first1)
    else unguarded_partition comp fuel (iter_swap l first1 last1) (first1 + 1) last1 pivot

/-- `std::__unguarded_partition_pivot(first, last, comp)`. -/
def unguarded_partition_pivot {α : Type} (comp : α → α → Bool) (l : List α)
    (first last : Nat) : List α × Nat :=
  let mid := first + (last - first) / 2
  let l1 := move_median_to_first comp l first (first + 1) mid (last - 1)
  unguarded_partition comp l.length l1 (first + 1) last first

/-- `std::__introsort_loop(first, last, depth_limit, comp)` with `_S_threshold = 16`, the
first argument being the depth limit. The heap sort a range falls back to when the depth limit
is used up (`std::__partial_sort`) is not embedded: the result is `none` there. -/
def introsort_loop {α : Type} (comp : α → α → Bool) :
    Nat → List α → Nat → Nat → Option (List α)
  | 0, l, first, last => if last - first > 16 then none else some l
  | depth_limit + 1, l, first, last =>
    if last - first > 16 then
      let p := unguarded_partition_pivot comp l first last
      (introsort_loop comp depth_limit p.1 p.2 last).bind
        (fun l2 => introsort_loop comp depth_limit l2 first p.2)
    else some l

/-- The binary logarithm rounded down, with fuel. -/
def lgAux : Nat → Nat → Nat
  | 0, _ => 0
  | fuel + 1, n => if n < 2 then 0 else lgAux fuel (n / 2) + 1

/-- `std::__lg(n)`: the binary logarithm of `n`, rounded down. -/
def lg (n : Nat) : Nat := lgAux n n

/-- `std::sort(_followerData.begin(), _followerData.end(), comp)` as libstdc++ runs it, with
the comparator of `UpdateFormationOffsetsForAllFollowers`
(`previous.FormationPosition < next.FormationPosition`): the introsort loop with depth limit
`2 * __lg(n)`, then `std::__final_insertion_sort`. The insertion loops of the latter move each
record to the left past the records that compare greater than it, which is the insertion sort
of the list by `FormationPosition`. The result is `none` where the run would enter the heap
sort. -/
def std_sort (l : List (FormationFollower F)) : Option (List (FormationFollower F)) :=
  if l.length = 0 then some l
  else
    (introsort_loop
      (fun previous next => decide (previous.FormationPosition < next.FormationPosition))
      (lg l.length * 2) l 0 l.length).map
      (fun r => r.insertionSort FormationFollower.le)

/-- The `std::sort` of libstdc++ as a sort meeting the `std::sort` contract: `std_sort`, and
insertion sort for a run that would enter the heap sort. It sorts up to 16 records by
insertion alone and keeps equivalent records in their order there; from 17 records on the
partitioning swaps reorder equivalent records. -/
def libstdcxxStdSort : StdSort F where
  sort l := (std_sort l).getD (l.insertionSort FormationFollower.le)
  perm l := by
    have hswap : ∀ (l : List (FormationFollower F)) (i j : Nat), (iter_swap l i j).Perm l := by
      intro l i j
      unfold iter_swap
      split
      · rename_i a b ha hb
        obtain ⟨hi, hia⟩ := List.getElem?_eq_some.mp ha
        obtain ⟨hj, hjb⟩ := List.getElem?_eq_some.mp hb
        rw [List.perm_iff_count]
        intro x
        have hj' : j < (l.set i b).length := by simpa using hj
        rw [List.count_set _ _ _ _ hj', List.count_set _ _ _ _ hi]
        have hb' : (l.set i b)[j] = b := by
          rw [List.getElem_set]
          split
          · rfl
          · exact hjb
        rw [hb', hia]
        have hmem : a ∈ l := hia ▸ List.getElem_mem hi
        have hpos : 0 < l.count a := List.count_pos_iff.mpr hmem
        by_cases h1 : a = x <;> by_cases h2 : b = x <;> simp [h1, h2] <;> subst_vars <;> omega
      · exact List.Perm.refl _
    have hmedian : ∀ (comp : FormationFollower F → FormationFollower F → Bool)
        (l : List (FormationFollower F)) (result a b c : Nat),
        (move_median_to_first comp l result a b c).Perm l := by
      intro comp l result a b c
      unfold move_median_to_first
      split_ifs <;> exact hswap _ _ _
    have hpartition : ∀ (comp : FormationFollower F → FormationFollower F → Bool)
        (fuel : Nat) (l : List (FormationFollower F)) (first last pivot : Nat),
        (unguarded_partition comp fuel l first last pivot).1.Perm l := by
      intro comp fuel
      induction fuel with
      | zero => intro l first last pivot; exact List.Perm.refl _
      | succ n ih =>
        intro l first last pivot
        unfold unguarded_partition
        simp only
        split_ifs
        · exact List.Perm.refl _
        · exact (ih _ _ _ _).trans (hswap _ _ _)
    have hloop : ∀ (comp : FormationFollower F → FormationFollower F → Bool)
        (depth_limit : Nat) (l r : List (FormationFollower F)) (first last : Nat),
        introsort_loop comp depth_limit l first last = some r → r.Perm l := by
      intro comp depth_limit
      induction depth_limit with
      | zero =>
        intro l r first last h
        unfold introsort_loop at h
        split_ifs at h
        cases h
        exact List.Perm.refl _
      | succ n ih =>
        intro l r first last h
        unfold introsort_loop at h
        split_ifs at h
        · simp only [Option.bind_eq_some] at h
          obtain ⟨l2, h2, h3⟩ := h
          have p1 : (unguarded_partition_pivot comp l first last).1.Perm l := by
            unfold unguarded_partition_pivot
            exact (hpartition _ _ _ _ _ _).trans (hmedian _ _ _ _ _ _)
          exact (ih _ _ _ _ h3).trans ((ih _ _ _ _ h2).trans p1)
        · cases h
          exact List.Perm.refl _
    simp only [std_sort]
    split_ifs
    · exact List.Perm.refl _
    · cases h : introsort_loop
          (fun previous next : FormationFollower F =>
            decide (previous.FormationPosition < next.FormationPosition))
          (lg l.length * 2) l 0 l.length with
      | none => exact List.perm_insertionSort FormationFollower.le l
      | some r =>
        exact (List.perm_insertionSort FormationFollower.le r).trans (hloop _ _ _ _ _ _ h)
  sorted l := by
    simp only [std_sort]
    split_ifs with h0
    · have : l = [] := List.length_eq_zero.mp h0
      subst this
      exact List.Pairwise.nil
    · cases h : introsort_loop
          (fun previous next : FormationFollower F =>
            decide (previous.FormationPosition < next.FormationPosition))
          (lg l.length * 2) l 0 l.length with
      | none =>
        exact List.Pairwise.imp (fun h => Nat.not_lt.mpr h)
          (List.sorted_insertionSort FormationFollower.le l)
      | some r =>
        exact List.Pairwise.imp (fun h => Nat.not_lt.mpr h)
          (List.sorted_insertionSort FormationFollower.le r)

end Auxiliary

/-- A `Libm` over the rationals for evaluating the topologies that call none of its
functions. -/
def libmQ : Libm ℚ := ⟨fun _ => 0, fun _ => 0, 0, fun _ _ _ => 0⟩

/-- A world in which every guid resolves to a creature with an empty idle slot. -/
def allCreatures : ObjectGuid → Option (Unit ℚ) := fun _ => some ⟨true, none, none⟩

/-- A formation state over the rationals: owner `1`, the given records, topology and radius,
every unit a creature with an empty idle slot, no calls recorded. -/
def stateQ (data : List (FormationFollower ℚ)) (type : AIFormationType) (radius : ℚ) : State ℚ :=
  ⟨⟨1, data, type, radius, 0, 1200⟩, allCreatures, 0, []⟩

/-- The members `1, 2, ..., n`, in this order, all with `FormationPosition` 0 (the position
the scripts pass when they do not care), offsets not yet computed. -/
def tiedFollowersQ (n : Nat) : List (FormationFollower ℚ) :=
  (List.range n).map (fun i => FormationFollower.new (i + 1) 0)

/-! ## The remaining operations of the formation -/

/-- `DEFAULT_FORMATION_FOLLOWER_DISTANCE`. -/
def DEFAULT_FORMATION_FOLLOWER_DISTANCE {F : Type} [OfNat F 3] : F := 3

/-- `CREATURE_FORMATION_MOVEMENT_INTERVAL`. -/
def CREATURE_FORMATION_MOVEMENT_INTERVAL : Nat := 1200

/-- `PLAYER_FORMATION_MOVEMENT_INTERVAL`. -/
def PLAYER_FORMATION_MOVEMENT_INTERVAL : Nat := 400

/-- The record `struct AIFormationSettings`. -/
structure AIFormationSettings (F : Type) where
  FormationType : Nat
  FormationRadius : F

/-- The settings map of `class AIFormationMgr`, keyed by the spawn id of the leader. -/
structure AIFormationMgr (F : Type) where
  _aiFormationSettingsMap : Nat → Option (AIFormationSettings F)

/-- `AIFormationMgr::GetAIFormationSettingsForSpawnId`: the entry of the map, if any. -/
def AIFormationMgr.GetAIFormationSettingsForSpawnId {F : Type} (mgr : AIFormationMgr F)
    (spawnId : Nat) : Option (AIFormationSettings F) :=
  mgr._aiFormationSettingsMap spawnId

/-- The type id of a `Unit`: a creature (`TYPEID_UNIT`) or a player (`TYPEID_PLAYER`). -/
inductive TypeID where
  | TYPEID_UNIT
  | TYPEID_PLAYER
deriving DecidableEq, Repr

/-- What the constructor of `AIFormation` reads of its owner. -/
structure Owner where
  GUID : ObjectGuid
  typeId : TypeID
  spawnId : Nat

/-- `Object::IsPlayer`. -/
def Owner.IsPlayer (o : Owner) : Bool := o.typeId == TypeID.TYPEID_PLAYER

/-- `Object::IsCreature`. -/
def Owner.IsCreature (o : Owner) : Bool := o.typeId == TypeID.TYPEID_UNIT

/-- The value an integer has once it is stored in an `int32` (two's complement). -/
def toInt32 (x : Int) : Int := (x + 2 ^ 31) % 2 ^ 32 - 2 ^ 31

section FormationOperations

variable {F : Type} [LinearOrderedField F] [FloorRing F]

/-- The constructor `AIFormation::AIFormation(Unit* owner)`. -/
def AIFormation.new (mgr : AIFormationMgr F) (owner : Owner) : AIFormation F :=
  let interval : Nat :=
    if owner.IsPlayer then PLAYER_FORMATION_MOVEMENT_INTERVAL
    else CREATURE_FORMATION_MOVEMENT_INTERVAL
  if owner.IsCreature then
    match mgr.GetAIFormationSettingsForSpawnId owner.spawnId with
    | some settings =>
      ⟨owner.GUID, [], settings.FormationType, settings.FormationRadius, 0, interval⟩
    | none =>
      ⟨owner.GUID, [], AIFormationType.GridBehindLeader, DEFAULT_FORMATION_FOLLOWER_DISTANCE, 0,
        interval⟩
  else
    ⟨owner.GUID, [], AIFormationType.GridBehindLeader, DEFAULT_FORMATION_FOLLOWER_DISTANCE, 0,
      interval⟩

/-- `AIFormation::Update(uint32 diff)`. The timer is an `int32` and `diff` a `uint32`: the
subtraction is carried out modulo `2^32` and its result stored back as an `int32`. -/
def AIFormation.Update (f : AIFormation F) (diff : Nat) : AIFormation F :=
  let t : Int := toInt32 (f._formationMovementTimer - ((diff % 2 ^ 32 : Nat) : Int))
  if t ≤ 0 then
    { f with _formationMovementTimer := toInt32 (t + (f._formationMovementInterval : Int)) }
  else
    { f with _formationMovementTimer := t }

/-- `AIFormation::GetNextFormationMovementTime`. -/
def AIFormation.GetNextFormationMovementTime (f : AIFormation F) : Int :=
  f._formationMovementTimer

/-- `AIFormation::SetFormationType`. -/
def SetFormationType (srt : StdSort F) (m : Libm F) (s : State F) (type : AIFormationType) :
    Option (State F) :=
  UpdateFormationOffsetsForAllFollowers srt m
    { s with formation := { s.formation with _formationType := type } }

/-- `AIFormation::SetFormationFollowerDistance`. -/
def SetFormationFollowerDistance (srt : StdSort F) (m : Libm F) (s : State F) (distance : F) :
    Option (State F) :=
  UpdateFormationOffsetsForAllFollowers srt m
    { s with formation := { s.formation with _formationRadius := distance } }

/-- The loop body of `InvertFormationOffsets`: X and Y of the stored offset times `-1.f`. -/
def FormationFollower.invert (followerData : FormationFollower F) : FormationFollower F :=
  { followerData with
    FormationOffsets :=
      { followerData.FormationOffsets with
        m_positionX := followerData.FormationOffsets.m_positionX * -1
        m_positionY := followerData.FormationOffsets.m_positionY * -1 } }

/-- `AIFormation::InvertFormationOffsets`. -/
def InvertFormationOffsets (srt : StdSort F) (m : Libm F) (s : State F) : Option (State F) :=
  UpdateFormationOffsetsForAllFollowers srt m
    { s with
      formation :=
        { s.formation with
          _followerData := s.formation._followerData.map FormationFollower.invert } }

end FormationOperations

/-! ## The follower movement controller (FormationMovementGenerator.cpp) -/

/-- The values of `enum UnitMoveType` that `SelectSpeedType` returns. -/
inductive UnitMoveType where
  | MOVE_WALK
  | MOVE_RUN
  | MOVE_RUN_BACK
  | MOVE_SWIM
  | MOVE_SWIM_BACK
  | MOVE_FLIGHT
  | MOVE_FLIGHT_BACK
deriving DecidableEq, Repr

/-- The four movement-flag masks `SelectSpeedType` tests. Their values are declared outside
the sources at hand and are left open. -/
structure MovementFlags where
  MOVEMENTFLAG_FLYING : Nat
  MOVEMENTFLAG_BACKWARD : Nat
  MOVEMENTFLAG_SWIMMING : Nat
  MOVEMENTFLAG_WALKING : Nat

/-- The test `moveFlags & MASK` of a flag word against a mask. -/
def hasFlag (moveFlags mask : Nat) : Bool := moveFlags &&& mask != 0

/-- `SelectSpeedType(uint32 moveFlags)`. -/
def SelectSpeedType (fl : MovementFlags) (moveFlags : Nat) : UnitMoveType :=
  if hasFlag moveFlags fl.MOVEMENTFLAG_FLYING then
    if hasFlag moveFlags fl.MOVEMENTFLAG_BACKWARD then UnitMoveType.MOVE_FLIGHT_BACK
    else UnitMoveType.MOVE_FLIGHT
  else if hasFlag moveFlags fl.MOVEMENTFLAG_SWIMMING then
    if hasFlag moveFlags fl.MOVEMENTFLAG_BACKWARD then UnitMoveType.MOVE_SWIM_BACK
    else UnitMoveType.MOVE_SWIM
  else if hasFlag moveFlags fl.MOVEMENTFLAG_WALKING then UnitMoveType.MOVE_WALK
  else if hasFlag moveFlags fl.MOVEMENTFLAG_BACKWARD then UnitMoveType.MOVE_RUN_BACK
  else UnitMoveType.MOVE_RUN

/-- What the controller reads of its target, the formation leader. A leader that is not a
creature is a player. -/
structure Leader (F : Type) where
  IsCreature : Bool
  splineFinalized : Bool
  isMoving : Bool
  position : Position F
  unitMovementFlags : Nat
  speed : UnitMoveType → F
  splineVelocity : F
  splineCurrentDestination : Position F
  nextFormationMovementTime : Int

/-- What the controller reads and writes of its owner, the follower: position, home position,
the unit states `UNIT_STATE_ROAMING` and `UNIT_STATE_ROAMING_MOVE`, whether a state of
`UNIT_STATE_NOT_MOVE` is set, whether casting prevents movement, and whether its spline is
finalized. -/
structure Follower (F : Type) where
  position : Position F
  homePosition : Position F
  roaming : Bool
  roamingMove : Bool
  notMove : Bool
  movementPreventedByCasting : Bool
  splineFinalized : Bool

/-- The value of a `float` expression containing a division: a number of the field, an
infinity (`negative` tells its sign), or NaN. The sign of a zero is not represented. -/
inductive FloatValue (F : Type) where
  | finite (x : F)
  | infinite (negative : Bool)
  | nan
deriving DecidableEq, Repr

/-- The movement commands a tick can issue: `StopMoving()` and the launch of a spline to a
destination with a velocity (`MoveSplineInit::SetVelocity` takes a `float`). -/
inductive MoveCommand (F : Type) where
  | stopMoving
  | launch (dest : Position F) (velocity : FloatValue F)
deriving DecidableEq, Repr

/-- Modelled from the spec: the header declaring the fields of `FormationMovementGenerator` is
not among the sources. The controller holds its assigned offset, the countdown to the next
recomputation, the secondary check countdown and the last leader position used for alignment;
the countdowns are integers. -/
structure FormationMovementGenerator (F : Type) where
  _formationOffset : Position F
  _movementTimer : Int
  _movementCheckTimer : Int
  _lastLeaderPosition : Position F

/-- The functions and constants of the actor model and the motion subsystem that
`LaunchMovement` and `DoUpdate` call; all are declared outside the sources at hand. -/
structure MotionEnv (F : Type) where
  flags : MovementFlags
  MOVEMENT_CHECK_INTERVAL : Nat
  GetRelativeAngle : Position F → Position F → F
  GetExactDist2d : Position F → Position F → F
  GetExactDist : Position F → Position F → F
  MovePositionToFirstCollision : Leader F → Position F → F → F → Position F

/-- What a tick leaves behind: the value `DoUpdate` returns, the controller, the follower and
the movement commands issued, in order. -/
structure TickResult (F : Type) where
  result : Bool
  generator : FormationMovementGenerator F
  owner : Option (Follower F)
  commands : List (MoveCommand F)

section Controller

variable {F : Type} [LinearOrderedField F]

/-- The comparison `a < b` of two `float` values: false whenever one of them is NaN. -/
def FloatValue.lt : FloatValue F → FloatValue F → Bool
  | FloatValue.finite x, FloatValue.finite y => decide (x < y)
  | FloatValue.finite _, FloatValue.infinite negative => !negative
  | FloatValue.infinite negative, FloatValue.finite _ => negative
  | FloatValue.infinite n1, FloatValue.infinite n2 => n1 && !n2
  | _, _ => false

/-- The product `a * b` of two `float` values: NaN when a factor is NaN or when zero meets an
infinity. -/
def FloatValue.mul : FloatValue F → FloatValue F → FloatValue F
  | FloatValue.finite x, FloatValue.finite y => FloatValue.finite (x * y)
  | FloatValue.finite x, FloatValue.infinite negative =>
    if x = 0 then FloatValue.nan else FloatValue.infinite (xor (decide (x < 0)) negative)
  | FloatValue.infinite negative, FloatValue.finite y =>
    if y = 0 then FloatValue.nan else FloatValue.infinite (xor negative (decide (y < 0)))
  | FloatValue.infinite n1, FloatValue.infinite n2 => FloatValue.infinite (xor n1 n2)
  | _, _ => FloatValue.nan

/-- `std::min<float>(a, b)`: `b` when `b < a`, else `a`. -/
def stdMin (a b : FloatValue F) : FloatValue F := if FloatValue.lt b a then b else a

/-- The `float` division `a / b` of two numbers: the quotient of the field for a divisor other
than zero; for a zero divisor NaN when the dividend is zero too, and otherwise the infinity of
the sign of the dividend. -/
def floatDiv (a b : F) : FloatValue F :=
  if b = 0 then (if a = 0 then FloatValue.nan else FloatValue.infinite (decide (a < 0)))
  else FloatValue.finite (a / b)

/-- The catch-up multiplier of `LaunchMovement`:
`std::min<float>(distance / travelDist, 1.5f)`. -/
def velocityMod (distance travelDist : F) : FloatValue F :=
  stdMin (floatDiv distance travelDist) (FloatValue.finite (3 / 2))

/-- The velocity `LaunchMovement` starts from: the nominal speed of the leader for its movement
flags when its spline is finalized, the velocity of its spline otherwise. -/
def leaderVelocity (env : MotionEnv F) (target : Leader F) : F :=
  if target.splineFinalized then
    target.speed (SelectSpeedType env.flags target.unitMovementFlags)
  else target.splineVelocity

/-- `FormationMovementGenerator::LaunchMovement(owner, enforceAlignment)`: the controller and
the follower afterwards, and the destination and velocity of the spline launched. -/
def LaunchMovement (env : MotionEnv F) (gen : FormationMovementGenerator F)
    (owner : Follower F) (target : Leader F) (enforceAlignment : Bool) :
    FormationMovementGenerator F × Follower F × Position F × FloatValue F :=
  let relativeAngle : F :=
    if !target.splineFinalized then
      env.GetRelativeAngle target.position target.splineCurrentDestination
    else 0
  let dest : Position F := target.position
  let range : F := env.GetExactDist2d Position.origin gen._formationOffset
  let angle : F := env.GetRelativeAngle Position.origin gen._formationOffset
  let velocity : F := leaderVelocity env target
  let r : Position F × FloatValue F :=
    if !target.splineFinalized || target.isMoving then
      let travelDist : F := if target.IsCreature then velocity * (165 / 100) else velocity
      let dest1 := env.MovePositionToFirstCollision target dest travelDist relativeAngle
      let dest2 := env.MovePositionToFirstCollision target dest1 range (angle + relativeAngle)
      let distance : F := env.GetExactDist owner.position dest2
      (dest2, FloatValue.mul (FloatValue.finite velocity) (velocityMod distance travelDist))
    else if target.IsCreature || enforceAlignment then
      (env.MovePositionToFirstCollision target dest range (angle + relativeAngle),
        FloatValue.finite velocity)
    else
      (dest, FloatValue.finite velocity)
  ({ gen with _lastLeaderPosition := target.position }, { owner with roamingMove := true },
    r.1, r.2)

/-- `FormationMovementGenerator::DoUpdate(owner, diff)`, the references to the follower and
the leader given as options (`none` for a reference that does not resolve). -/
def DoUpdate (env : MotionEnv F) (gen : FormationMovementGenerator F)
    (owner : Option (Follower F)) (target : Option (Leader F)) (diff : Nat) : TickResult F :=
  match owner, target with
  | some o, some t =>
    let o1 : Follower F := { o with homePosition := o.position }
    let o2 : Follower F :=
      if o1.roamingMove && o1.splineFinalized then { o1 with roamingMove := false } else o1
    if o2.notMove || o2.movementPreventedByCasting then
      ⟨true, { gen with _movementTimer := 0 }, some { o2 with roamingMove := false },
        [MoveCommand.stopMoving]⟩
    else if t.IsCreature && t.splineFinalized then
      if gen._lastLeaderPosition ≠ t.position then
        let l := LaunchMovement env gen o2 t false
        ⟨true, { l.1 with _movementTimer := 0 }, some l.2.1,
          [MoveCommand.launch l.2.2.1 l.2.2.2]⟩
      else
        ⟨true, { gen with _movementTimer := 0 }, some o2, []⟩
    else
      let check : Int := gen._movementCheckTimer - (diff : Int)
      let check1 : Int := if check < 0 then check + (env.MOVEMENT_CHECK_INTERVAL : Int) else check
      let timer : Int := gen._movementTimer - (diff : Int)
      if timer ≤ 0 then
        let g1 : FormationMovementGenerator F :=
          { gen with _movementCheckTimer := check1
                     _movementTimer := t.nextFormationMovementTime }
        let l := LaunchMovement env g1 o2 t false
        ⟨true, l.1, some l.2.1, [MoveCommand.launch l.2.2.1 l.2.2.2]⟩
      else
        ⟨true, { gen with _movementCheckTimer := check1, _movementTimer := timer }, some o2, []⟩
  | _, _ => ⟨false, gen, owner, []⟩

end Controller

/-- A tick launches a movement when a spline launch is among the commands it issued. -/
def TickResult.launches {F : Type} (r : TickResult F) : Prop :=
  ∃ dest velocity, MoveCommand.launch dest velocity ∈ r.commands

/-- A settings map without entries, over the rationals. -/
def noSettingsQ : AIFormationMgr ℚ := ⟨fun _ => none⟩

/-- A creature owner (guid 1, spawn id 7). -/
def creatureOwner : Owner := ⟨1, TypeID.TYPEID_UNIT, 7⟩

/-- The constant `float(M_PI)` of the fanned-out and circle shapes: the `float` nearest to
pi, `0x40490FDB = 13176795 / 2^22`. Halving and doubling it are exact, so `float(M_PI / 2)` and
`float(M_PI * 2)` are its half and its double. -/
def float_M_PI : ℚ := 13176795 / 4194304

/-- What the division-safety statement asks of a recorded call: an evaluation of the geometry
saw at least one follower and an index below the follower count, so neither the follower
count nor the divisor of the fanned-out shapes is zero. -/
def Event.Safe {F : Type} : Event F → Prop
  | Event.calculate index count => 1 ≤ count ∧ index < count ∧ fanDivider count ≠ 0
  | _ => True

/-! ## Offset geometry: the index-only topologies -/

section GeometryFacts

variable {F : Type} [LinearOrderedField F] [FloorRing F]

/-- The rank of the side-by-side shape before it is narrowed: `std::ceil((i + 1) / 2.f)`. -/
theorem ceil_succ_div_two (i : Nat) : ⌈(((i + 1 : Nat) : F) / 2)⌉₊ = (i + 2) / 2 := by
  rw [Nat.ceil_eq_iff (by omega)]
  obtain ⟨k, rfl | rfl⟩ := Nat.even_or_odd' i
  · have h1 : (2 * k + 2) / 2 = k + 1 := by omega
    rw [h1]
    push_cast
    constructor <;> linarith
  · have h1 : (2 * k + 1 + 2) / 2 = k + 1 := by omega
    rw [h1]
    push_cast
    constructor <;> linarith

/-- The side-by-side offset in closed form, the narrowing of the rank to `uint8` included,
for an index whose successor fits `uint32`. -/
theorem sideBySide_offset (m : Libm F) (f : AIFormation F) (rng i : Nat)
    (hi : i + 1 < 2 ^ 32) :
    (CalculateFormationOffsets m { f with _formationType := AIFormationType.SideBySide } rng i).1
      = ⟨0, (if i % 2 = 0 then f._formationRadius else -f._formationRadius)
              * ((((i + 2) / 2 % 256 : Nat)) : F), 0, 0⟩ := by
  have hpar : ((i + 1) % 2 != 0) = decide (i % 2 = 0) := by
    rcases Nat.mod_two_eq_zero_or_one i with h | h
    · have : (i + 1) % 2 = 1 := by omega
      simp [h, this]
    · have : (i + 1) % 2 = 0 := by omega
      simp [h, this]
  simp only [CalculateFormationOffsets, AIFormationType.SideBySide, Position.RelocateOffset,
    Position.origin, Nat.mod_eq_of_lt hi, ceil_succ_div_two, hpar, zero_add]
  by_cases h : i % 2 = 0 <;> simp [h]

/-- For every index up to `509` the side-by-side rank fits `uint8`: the offset is
`(0, +r*k)` for even `i` and `(0, -r*k)` for odd `i`, with `k = ceil((i+1)/2)`. -/
theorem sideBySide_offset_of_le (m : Libm F) (f : AIFormation F) (rng i : Nat) (hi : i ≤ 509) :
    (CalculateFormationOffsets m { f with _formationType := AIFormationType.SideBySide } rng i).1
      = ⟨0, (if i % 2 = 0 then f._formationRadius else -f._formationRadius)
              * ((⌈(((i + 1 : Nat) : F) / 2)⌉₊ : Nat) : F), 0, 0⟩ := by
  rw [sideBySide_offset m f rng i (by omega), ceil_succ_div_two]
  have : (i + 2) / 2 % 256 = (i + 2) / 2 := Nat.mod_eq_of_lt (by omega)
  rw [this]

/-- C2, amended: for the SingleFile topology with radius `r`, `CalculateFormationOffsets` returns
the offset `(-r*(i+1), 0)` for every formation index `i` whose successor fits `uint32`
(`i ≤ 4294967294`), whatever the follower list (and so the follower count) is. -/
theorem C2_singleFile_offset (m : Libm F) (f : AIFormation F) (rng i : Nat)
    (hi : i + 1 < 2 ^ 32) :
    (CalculateFormationOffsets m { f with _formationType := AIFormationType.SingleFile } rng i).1
      = ⟨-f._formationRadius * ((i : F) + 1), 0, 0, 0⟩ := by
  simp only [CalculateFormationOffsets, AIFormationType.SingleFile, Position.RelocateOffset,
    Position.origin, Nat.mod_eq_of_lt hi]
  simp

/-- C3: at the side-by-side index `510` the rank `ceil(511/2) = 256` does not fit the `uint8`
multiplier: the lateral offset is `0` there, while at index `509` it is `-255*r` and at index
`508` it is `+255*r`; the magnitude of Y drops from `255*|r|` to `0`. -/
theorem C3_sideBySide_rank_narrowed (m : Libm F) (f : AIFormation F) (rng : Nat) :
    (CalculateFormationOffsets m { f with _formationType := AIFormationType.SideBySide }
        rng 510).1.m_positionY = 0
    ∧ (CalculateFormationOffsets m { f with _formationType := AIFormationType.SideBySide }
        rng 509).1.m_positionY = -f._formationRadius * 255
    ∧ (CalculateFormationOffsets m { f with _formationType := AIFormationType.SideBySide }
        rng 508).1.m_positionY = f._formationRadius * 255
    ∧ ⌈(((510 + 1 : Nat) : F) / 2)⌉₊ = 256 := by
  refine ⟨?_, ?_, ?_, ?_⟩
  · rw [sideBySide_offset m f rng 510 (by norm_num)]; norm_num
  · rw [sideBySide_offset m f rng 509 (by norm_num)]; norm_num
  · rw [sideBySide_offset m f rng 508 (by norm_num)]; norm_num
  · rw [ceil_succ_div_two]

end GeometryFacts

/-! ## Offset geometry: the trigonometric topologies, over the reals -/

section Trigonometric

/-- C4: CircleAroundLeader with `n >= 1` followers, radius `r`, index `i < n`: the offset is
`(r*cos(2*pi*i/n), r*sin(2*pi*i/n))`; it satisfies `x^2 + y^2 = r^2`; the offset of the next
index is the offset of `i` turned by the angle `2*pi/n`; and index `0` is at `(r, 0)`. -/
theorem C4_circle_offsets (frand : Nat → ℝ → ℝ → ℝ) (f : AIFormation ℝ) (rng i : Nat)
    (_hn : 1 ≤ f._followerData.length) (_hi : i < f._followerData.length) :
    let m : Libm ℝ := ⟨Real.cos, Real.sin, Real.pi, frand⟩
    let c : AIFormation ℝ := { f with _formationType := AIFormationType.CircleLeader }
    let n : ℝ := (f._followerData.length : ℝ)
    let r : ℝ := f._formationRadius
    let p := (CalculateFormationOffsets m c rng i).1
    let q := (CalculateFormationOffsets m c rng (i + 1)).1
    p = ⟨r * Real.cos (2 * Real.pi * i / n), r * Real.sin (2 * Real.pi * i / n), 0, 0⟩
    ∧ p.m_positionX ^ 2 + p.m_positionY ^ 2 = r ^ 2
    ∧ q.m_positionX
        = p.m_positionX * Real.cos (2 * Real.pi / n) - p.m_positionY * Real.sin (2 * Real.pi / n)
    ∧ q.m_positionY
        = p.m_positionX * Real.sin (2 * Real.pi / n) + p.m_positionY * Real.cos (2 * Real.pi / n)
    ∧ (CalculateFormationOffsets m c rng 0).1 = ⟨r, 0, 0, 0⟩ := by
  intro m c n r p q
  have hp : p = ⟨r * Real.cos (2 * Real.pi * i / n), r * Real.sin (2 * Real.pi * i / n), 0, 0⟩ := by
    simp only [p, m, c, n, r, CalculateFormationOffsets, AIFormationType.CircleLeader,
      Position.origin]
    have e : Real.pi * 2 / (f._followerData.length : ℝ) * (i : ℝ)
        = 2 * Real.pi * i / (f._followerData.length : ℝ) := by ring
    rw [e, mul_comm (Real.cos _), mul_comm (Real.sin _)]
  have hq : q = ⟨r * Real.cos (2 * Real.pi * i / n + 2 * Real.pi / n),
      r * Real.sin (2 * Real.pi * i / n + 2 * Real.pi / n), 0, 0⟩ := by
    simp only [q, m, c, n, r, CalculateFormationOffsets, AIFormationType.CircleLeader,
      Position.origin]
    have e : Real.pi * 2 / (f._followerData.length : ℝ) * ((i + 1 : Nat) : ℝ)
        = 2 * Real.pi * i / (f._followerData.length : ℝ)
          + 2 * Real.pi / (f._followerData.length : ℝ) := by
      push_cast; ring
    rw [e, mul_comm (Real.cos _), mul_comm (Real.sin _)]
  refine ⟨hp, ?_, ?_, ?_, ?_⟩
  · rw [hp]
    have := Real.sin_sq_add_cos_sq (2 * Real.pi * i / n)
    simp only
    nlinarith [this]
  · rw [hq, hp]
    simp only
    rw [Real.cos_add]; ring
  · rw [hq, hp]
    simp only
    rw [Real.sin_add]; ring
  · simp [m, c, r, CalculateFormationOffsets, AIFormationType.CircleLeader, Position.origin]

/-- C5: fanned-out topologies with `n >= 1` followers, radius `r`, index `i < n`, with
`divider = n` if `n <= 2` and `max(3, n-1)` otherwise and `theta = pi/2 + i*pi/divider`:
FannedOutBehind gives `(r*cos theta, r*sin theta)`, FannedOutInFront gives
`(-r*cos theta, r*sin theta)`; the two share Y and have opposite X, and both offsets satisfy
`x^2 + y^2 = r^2`. -/
theorem C5_fanned_offsets (frand : Nat → ℝ → ℝ → ℝ) (f : AIFormation ℝ) (rng i : Nat)
    (_hn : 1 ≤ f._followerData.length) (_hi : i < f._followerData.length) :
    let m : Libm ℝ := ⟨Real.cos, Real.sin, Real.pi, frand⟩
    let r : ℝ := f._formationRadius
    let theta : ℝ := Real.pi / 2 + i * Real.pi / (fanDivider f._followerData.length : ℝ)
    let b := (CalculateFormationOffsets m
      { f with _formationType := AIFormationType.FannedOutBehindLeader } rng i).1
    let a := (CalculateFormationOffsets m
      { f with _formationType := AIFormationType.FannedOutInFrontOfLeader } rng i).1
    b = ⟨r * Real.cos theta, r * Real.sin theta, 0, 0⟩
    ∧ a = ⟨-r * Real.cos theta, r * Real.sin theta, 0, 0⟩
    ∧ a.m_positionY = b.m_positionY
    ∧ a.m_positionX = -b.m_positionX
    ∧ b.m_positionX ^ 2 + b.m_positionY ^ 2 = r ^ 2
    ∧ a.m_positionX ^ 2 + a.m_positionY ^ 2 = r ^ 2 := by
  intro m r theta b a
  have e : Real.pi / 2 + Real.pi / (fanDivider f._followerData.length : ℝ) * (i : ℝ) = theta := by
    simp only [theta]; ring
  have hb : b = ⟨r * Real.cos theta, r * Real.sin theta, 0, 0⟩ := by
    simp only [b, m, r, CalculateFormationOffsets, AIFormationType.FannedOutBehindLeader,
      Position.origin]
    rw [← fanDivider, e]
    simp [mul_comm]
  have ha : a = ⟨-r * Real.cos theta, r * Real.sin theta, 0, 0⟩ := by
    simp only [a, m, r, CalculateFormationOffsets, AIFormationType.FannedOutInFrontOfLeader,
      AIFormationType.FannedOutBehindLeader, Position.origin]
    rw [← fanDivider, e]
    simp [mul_comm]
  have hsc := Real.sin_sq_add_cos_sq theta
  refine ⟨hb, ha, ?_, ?_, ?_, ?_⟩
  · rw [ha, hb]
  · rw [ha, hb]; simp
  · rw [hb]; simp only; nlinarith [hsc]
  · rw [ha]; simp only; nlinarith [hsc]

end Trigonometric

/-! ## The recomputation loop -/

/-- Overwriting a resolvable guid with a unit keeps every guid as resolvable as it was. -/
theorem isSome_update_some {F : Type} (units : ObjectGuid → Option (Unit F)) (g : ObjectGuid) (u : Unit F)
    (hg : (units g).isSome) (g' : ObjectGuid) :
    (Function.update units g (some u) g').isSome = (units g').isSome := by
  by_cases h : g' = g
  · subst h; simp [hg]
  · simp [Function.update_noteq h]

section MembershipLemmas

variable {F : Type} [LinearOrderedField F] [FloorRing F]

/-- The geometry reads the formation only through its topology, radius and follower count. -/
theorem calculate_congr (m : Libm F) (f g : AIFormation F) (rng i : Nat)
    (ht : f._formationType = g._formationType) (hr : f._formationRadius = g._formationRadius)
    (hl : f._followerData.length = g._followerData.length) :
    CalculateFormationOffsets m f rng i = CalculateFormationOffsets m g rng i := by
  simp only [CalculateFormationOffsets, ht, hr, hl]

/-- Outside the Random topology no `frand` call is made. -/
theorem calculate_snd (m : Libm F) (f : AIFormation F) (rng i : Nat)
    (hty : f._formationType ≠ AIFormationType.Random) :
    (CalculateFormationOffsets m f rng i).2 = rng := by
  unfold CalculateFormationOffsets
  split <;> first | rfl | (exfalso; apply hty; assumption)

/-- Outside the Random topology the offset does not depend on the `frand` counter. -/
theorem calculate_fst (m : Libm F) (f : AIFormation F) (rng rng' i : Nat)
    (hty : f._formationType ≠ AIFormationType.Random) :
    (CalculateFormationOffsets m f rng i).1 = (CalculateFormationOffsets m f rng' i).1 := by
  unfold CalculateFormationOffsets
  split <;> first | rfl | (exfalso; apply hty; assumption)

theorem length_offsetsFrom (m : Libm F) (f : AIFormation F) :
    ∀ (l : List (FormationFollower F)) (k rng : Nat), (offsetsFrom m f l k rng).length = l.length
  | [], _, _ => rfl
  | _ :: rest, k, rng => by
    simp [offsetsFrom, length_offsetsFrom m f rest]

theorem map_key_offsetsFrom (m : Libm F) (f : AIFormation F) :
    ∀ (l : List (FormationFollower F)) (k rng : Nat),
      (offsetsFrom m f l k rng).map FormationFollower.key = l.map FormationFollower.key
  | [], _, _ => rfl
  | _ :: rest, k, rng => by
    simp [offsetsFrom, map_key_offsetsFrom m f rest, FormationFollower.key]

/-- The assigned records are determined by the identities of the input records. -/
theorem offsetsFrom_congr (m : Libm F) (f g : AIFormation F)
    (ht : f._formationType = g._formationType) (hr : f._formationRadius = g._formationRadius)
    (hl : f._followerData.length = g._followerData.length) :
    ∀ (l l' : List (FormationFollower F)) (k rng : Nat),
      l.map FormationFollower.key = l'.map FormationFollower.key →
      offsetsFrom m f l k rng = offsetsFrom m g l' k rng
  | [], [], _, _, _ => rfl
  | [], _ :: _, _, _, h => by simp at h
  | _ :: _, [], _, _, h => by simp at h
  | a :: rest, b :: rest', k, rng, h => by
    simp only [List.map_cons, List.cons.injEq, FormationFollower.key, Prod.mk.injEq] at h
    obtain ⟨⟨hg, hp⟩, hrest⟩ := h
    simp only [offsetsFrom, calculate_congr m f g rng k ht hr hl, hg, hp]
    rw [offsetsFrom_congr m f g ht hr hl rest rest' _ _ hrest]

/-- Outside the Random topology the record in slot `j` holds the offset of index `k + j`. -/
theorem getElem_offsetsFrom (m : Libm F) (f : AIFormation F)
    (hty : f._formationType ≠ AIFormationType.Random) :
    ∀ (l : List (FormationFollower F)) (k rng rng' j : Nat)
      (hj : j < (offsetsFrom m f l k rng).length),
      ((offsetsFrom m f l k rng).get ⟨j, hj⟩).FormationOffsets
        = (CalculateFormationOffsets m f rng' (k + j)).1
  | [], _, _, _, _, hj => by simp [offsetsFrom] at hj
  | a :: rest, k, rng, rng', 0, _ => by
    simp [offsetsFrom, calculate_fst m f rng rng' k hty]
  | a :: rest, k, rng, rng', j + 1, hj => by
    simp only [offsetsFrom, List.get_eq_getElem, List.getElem_cons_succ]
    have hj' : j < (offsetsFrom m f rest (k + 1)
        (CalculateFormationOffsets m f rng k).2).length := by
      simpa [offsetsFrom] using hj
    have := getElem_offsetsFrom m f hty rest (k + 1)
      (CalculateFormationOffsets m f rng k).2 rng' j hj'
    simp only [List.get_eq_getElem] at this
    rw [this]
    congr 2
    omega

/-- The loop completes exactly when every record resolves to a unit; it then stores the
offsets of `offsetsFrom`, leaves the formation alone, keeps the set of resolvable guids, and
records one evaluation of the geometry per record. -/
theorem assignOffsets_some (m : Libm F) (f : AIFormation F) :
    ∀ (l : List (FormationFollower F)) (k : Nat) (s : State F),
      (∀ fd ∈ l, (s.units fd.GUID).isSome) →
      ∃ s', assignOffsets m f l k s = some (offsetsFrom m f l k s.rng, s')
        ∧ s'.formation = s.formation
        ∧ (∀ g, (s'.units g).isSome = (s.units g).isSome)
        ∧ s'.trace = s.trace
            ++ (List.range' k l.length).map (fun j => Event.calculate j f._followerData.length)
        ∧ (f._formationType ≠ AIFormationType.Random → s'.rng = s.rng)
  | [], k, s, _ => ⟨s, by simp [assignOffsets, offsetsFrom]⟩
  | fd :: rest, k, s, hres => by
    obtain ⟨u, hu⟩ := Option.isSome_iff_exists.mp (hres fd (List.mem_cons_self _ _))
    have hrest : ∀ fd' ∈ rest,
        ((Function.update s.units fd.GUID
          (some (u.pushFormationOffset (CalculateFormationOffsets m f s.rng k).1))) fd'.GUID).isSome := by
      intro fd' hfd'
      rw [isSome_update_some _ _ _ (by simp [hu])]
      exact hres fd' (List.mem_cons_of_mem _ hfd')
    obtain ⟨s', h1, h2, h3, h4, h5⟩ := assignOffsets_some m f rest (k + 1)
      { s with
        rng := (CalculateFormationOffsets m f s.rng k).2
        trace := s.trace ++ [Event.calculate k f._followerData.length]
        units := Function.update s.units fd.GUID
          (some (u.pushFormationOffset (CalculateFormationOffsets m f s.rng k).1)) } hrest
    refine ⟨s', ?_, h2, ?_, ?_, ?_⟩
    · simp only [assignOffsets, hu, h1, offsetsFrom]
    · intro g
      rw [h3 g]
      exact isSome_update_some _ _ _ (by simp [hu]) g
    · rw [h4]
      simp [List.range'_succ]
    · intro hty
      rw [h5 hty]
      exact calculate_snd m f s.rng k hty

/-- The loop aborts when some record does not resolve. -/
theorem assignOffsets_resolves (m : Libm F) (f : AIFormation F) :
    ∀ (l : List (FormationFollower F)) (k : Nat) (s : State F) r,
      assignOffsets m f l k s = some r → ∀ fd ∈ l, (s.units fd.GUID).isSome
  | [], _, _, _, _ => by simp
  | fd :: rest, k, s, r, h => by
    cases hu : s.units fd.GUID with
    | none => simp [assignOffsets, hu] at h
    | some u =>
      simp only [assignOffsets, hu] at h
      split at h
      · exact absurd h (by simp)
      · rename_i rest' s3 heq
        have ih := assignOffsets_resolves m f rest (k + 1) _ _ heq
        intro fd' hfd'
        rcases List.mem_cons.mp hfd' with rfl | hmem
        · simp [hu]
        · have := ih fd' hmem
          simp only at this
          rwa [isSome_update_some _ _ _ (by simp [hu])] at this

end MembershipLemmas

/-! ## Sorting -/

/-- Two lists of pairs that are permutations of each other and agree on their second
components slot by slot are equal, when those second components are pairwise distinct. -/
theorem eq_of_perm_of_map_snd_eq {α β : Type} :
    ∀ (X Y : List (α × β)), X.Perm Y → X.map Prod.snd = Y.map Prod.snd →
      (Y.map Prod.snd).Nodup → X = Y
  | [], [], _, _, _ => rfl
  | [], _ :: _, _, h, _ => by simp at h
  | _ :: _, [], _, h, _ => by simp at h
  | x :: X, y :: Y, hp, hm, hn => by
    simp only [List.map_cons, List.cons.injEq] at hm
    obtain ⟨hxy, hm'⟩ := hm
    have hxmem : x ∈ y :: Y := hp.subset (List.mem_cons_self _ _)
    have hx : x = y := by
      rcases List.mem_cons.mp hxmem with h | h
      · exact h
      · exfalso
        have hn' := (List.nodup_cons.mp hn).1
        apply hn'
        rw [← hxy]
        exact List.mem_map_of_mem _ h
    subst hx
    rw [eq_of_perm_of_map_snd_eq X Y (List.Perm.cons_inv hp) hm' (List.nodup_cons.mp hn).2]

section SortLemmas

variable {F : Type}

/-- A list in `std::sort` order has its positions in ascending order. -/
theorem sorted_positions (l : List (FormationFollower F))
    (h : l.Pairwise (fun a b => ¬ b.FormationPosition < a.FormationPosition)) :
    (l.map (fun a => (FormationFollower.key a).2)).Sorted (· ≤ ·) := by
  rw [List.Sorted, List.pairwise_map]
  exact h.imp (fun hab => Nat.not_lt.mp hab)

/-- The positions of a sorted vector are fixed by the multiset of its records. -/
theorem sort_positions_eq (srt : StdSort F) (l l' : List (FormationFollower F))
    (hp : (l.map FormationFollower.key).Perm (l'.map FormationFollower.key))
    (hs : l'.Pairwise (fun a b => ¬ b.FormationPosition < a.FormationPosition)) :
    (srt.sort l).map (fun a => (FormationFollower.key a).2)
      = l'.map (fun a => (FormationFollower.key a).2) := by
  apply List.eq_of_perm_of_sorted _ (sorted_positions _ (srt.sorted l)) (sorted_positions _ hs)
  have h1 : ((srt.sort l).map FormationFollower.key).Perm (l'.map FormationFollower.key) :=
    ((srt.perm l).map _).trans hp
  have := h1.map Prod.snd
  simpa [List.map_map] using this

/-- With pairwise distinct positions the sorted vector itself is fixed, up to offsets. -/
theorem sort_keys_eq (srt : StdSort F) (l l' : List (FormationFollower F))
    (hp : (l.map FormationFollower.key).Perm (l'.map FormationFollower.key))
    (hs : l'.Pairwise (fun a b => ¬ b.FormationPosition < a.FormationPosition))
    (hn : (l'.map (fun a => a.FormationPosition)).Nodup) :
    (srt.sort l).map FormationFollower.key = l'.map FormationFollower.key := by
  apply eq_of_perm_of_map_snd_eq
  · exact ((srt.perm l).map _).trans hp
  · have := sort_positions_eq srt l l' hp hs
    simpa [List.map_map] using this
  · simpa [List.map_map, FormationFollower.key] using hn

end SortLemmas

section UpdateLemmas

variable {F : Type} [LinearOrderedField F] [FloorRing F]

/-- A recomputation completes when every member resolves: the formation becomes
`recomputed`, the same guids resolve afterwards, one entry and one evaluation of the geometry
per member are recorded, and outside Random the `frand` counter stands still. -/
theorem update_some (srt : StdSort F) (m : Libm F) (s : State F)
    (hres : ∀ fd ∈ s.formation._followerData, (s.units fd.GUID).isSome) :
    ∃ s', UpdateFormationOffsetsForAllFollowers srt m s = some s'
      ∧ s'.formation = recomputed srt m s.formation s.rng
      ∧ (∀ g, (s'.units g).isSome = (s.units g).isSome)
      ∧ s'.trace = s.trace ++ Event.recompute ::
          (List.range' 0 s.formation._followerData.length).map
            (fun j => Event.calculate j s.formation._followerData.length)
      ∧ (s.formation._formationType ≠ AIFormationType.Random → s'.rng = s.rng) := by
  have hlen : (srt.sort s.formation._followerData).length = s.formation._followerData.length :=
    (srt.perm _).length_eq
  have hres' : ∀ fd ∈ srt.sort s.formation._followerData, (s.units fd.GUID).isSome :=
    fun fd hfd => hres fd ((srt.perm _).subset hfd)
  obtain ⟨s2, h1, h2, h3, h4, h5⟩ := assignOffsets_some m
    { s.formation with _followerData := srt.sort s.formation._followerData }
    (srt.sort s.formation._followerData) 0
    { s with
      formation := { s.formation with _followerData := srt.sort s.formation._followerData }
      trace := s.trace ++ [Event.recompute] } hres'
  have hU : UpdateFormationOffsetsForAllFollowers srt m s = some
      { s2 with formation :=
          { s.formation with
            _followerData := offsetsFrom m
              ({ s.formation with _followerData := srt.sort s.formation._followerData })
              (srt.sort s.formation._followerData) 0 s.rng } } := by
    simp only [UpdateFormationOffsetsForAllFollowers, h1]
  refine ⟨_, hU, ?_, h3, ?_, h5⟩
  · simp only [recomputed]
    congr 1
    exact offsetsFrom_congr m
      ({ s.formation with _followerData := srt.sort s.formation._followerData }) s.formation
      rfl rfl hlen _ _ _ _ rfl
  · simp only [h4, hlen]
    simp

/-- A recomputation that completed found every member resolvable. -/
theorem update_resolves (srt : StdSort F) (m : Libm F) (s s' : State F)
    (h : UpdateFormationOffsetsForAllFollowers srt m s = some s') :
    ∀ fd ∈ s.formation._followerData, (s.units fd.GUID).isSome := by
  intro fd hfd
  simp only [UpdateFormationOffsetsForAllFollowers] at h
  split at h
  · exact absurd h (by simp)
  · rename_i data s2 heq
    exact assignOffsets_resolves m _ _ _ _ _ heq fd ((srt.perm _).symm.subset hfd)

/-- The data of a recomputed formation, read as identities. -/
theorem recomputed_keys (srt : StdSort F) (m : Libm F) (f : AIFormation F) (rng : Nat) :
    (recomputed srt m f rng)._followerData.map FormationFollower.key
      = (srt.sort f._followerData).map FormationFollower.key := by
  simp [recomputed, map_key_offsetsFrom]

/-- The members of a recomputed formation stand in `std::sort` order. -/
theorem recomputed_sorted (srt : StdSort F) (m : Libm F) (f : AIFormation F) (rng : Nat) :
    (recomputed srt m f rng)._followerData.Pairwise
      (fun a b => ¬ b.FormationPosition < a.FormationPosition) := by
  have h := srt.sorted f._followerData
  have h1 : ((srt.sort f._followerData).map FormationFollower.key).Pairwise
      (fun a b => ¬ b.2 < a.2) := by
    rw [List.pairwise_map]; exact h
  rw [← recomputed_keys srt m f rng, List.pairwise_map] at h1
  exact h1

end UpdateLemmas

section RecomputedLemmas

variable {F : Type} [LinearOrderedField F] [FloorRing F]

/-- Outside Random the offsets the loop stores are those of the slots, in order. -/
theorem map_offsets_offsetsFrom (m : Libm F) (f : AIFormation F)
    (hty : f._formationType ≠ AIFormationType.Random) :
    ∀ (l : List (FormationFollower F)) (k rng : Nat),
      (offsetsFrom m f l k rng).map (fun a => a.FormationOffsets)
        = (List.range' k l.length).map (fun j => (CalculateFormationOffsets m f 0 j).1)
  | [], _, _ => rfl
  | a :: rest, k, rng => by
    simp only [offsetsFrom, List.map_cons, List.length_cons, List.range'_succ]
    rw [map_offsets_offsetsFrom m f hty rest (k + 1), calculate_fst m f rng 0 k hty]

/-- Outside Random the loop's result does not depend on the `frand` counter. -/
theorem offsetsFrom_rng (m : Libm F) (f : AIFormation F)
    (hty : f._formationType ≠ AIFormationType.Random) :
    ∀ (l : List (FormationFollower F)) (k rng rng' : Nat),
      offsetsFrom m f l k rng = offsetsFrom m f l k rng'
  | [], _, _, _ => rfl
  | a :: rest, k, rng, rng' => by
    simp only [offsetsFrom]
    rw [calculate_fst m f rng rng' k hty, offsetsFrom_rng m f hty rest (k + 1) _
      (CalculateFormationOffsets m f rng' k).2]

theorem recomputed_length (srt : StdSort F) (m : Libm F) (f : AIFormation F) (rng : Nat) :
    (recomputed srt m f rng)._followerData.length = f._followerData.length := by
  simp [recomputed, length_offsetsFrom, (srt.perm f._followerData).length_eq]

/-- The identities of a recomputed formation are a permutation of those before. -/
theorem recomputed_perm (srt : StdSort F) (m : Libm F) (f : AIFormation F) (rng : Nat) :
    ((recomputed srt m f rng)._followerData.map FormationFollower.key).Perm
      (f._followerData.map FormationFollower.key) := by
  rw [recomputed_keys]
  exact (srt.perm _).map _

/-- A property of guids that holds of every member still holds after a recomputation. -/
theorem recomputed_forall_guid (srt : StdSort F) (m : Libm F) (f : AIFormation F) (rng : Nat)
    (P : ObjectGuid → Prop) (h : ∀ fd ∈ f._followerData, P fd.GUID) :
    ∀ fd ∈ (recomputed srt m f rng)._followerData, P fd.GUID := by
  intro fd hfd
  have h1 : FormationFollower.key fd ∈ f._followerData.map FormationFollower.key :=
    (recomputed_perm srt m f rng).subset (List.mem_map_of_mem _ hfd)
  obtain ⟨fd', hfd', hk⟩ := List.mem_map.mp h1
  have : fd'.GUID = fd.GUID := congrArg Prod.fst hk
  rw [← this]
  exact h fd' hfd'

/-- Two formations that differ only in their records recompute to the same formation when
their sorted records carry the same identities in the same order. -/
theorem recomputed_congr (srt : StdSort F) (m : Libm F) (f : AIFormation F)
    (l l' : List (FormationFollower F)) (rng : Nat)
    (hk : (srt.sort l).map FormationFollower.key = (srt.sort l').map FormationFollower.key) :
    recomputed srt m { f with _followerData := l } rng
      = recomputed srt m { f with _followerData := l' } rng := by
  have hlen : l.length = l'.length := by
    have := congrArg List.length hk
    simpa [(srt.perm l).length_eq, (srt.perm l').length_eq] using this
  simp only [recomputed]
  congr 1
  exact offsetsFrom_congr m ({ f with _followerData := l }) ({ f with _followerData := l' })
    rfl rfl hlen _ _ _ _ hk

/-- Outside Random, recomputing a recomputed formation whose members have pairwise distinct
positions changes nothing. -/
theorem recomputed_recomputed (srt : StdSort F) (m : Libm F) (f : AIFormation F) (rng rng' : Nat)
    (hty : f._formationType ≠ AIFormationType.Random)
    (hn : (f._followerData.map (fun a => a.FormationPosition)).Nodup) :
    recomputed srt m (recomputed srt m f rng) rng' = recomputed srt m f rng := by
  have hn' : ((srt.sort f._followerData).map (fun a => a.FormationPosition)).Nodup :=
    (((srt.perm f._followerData).map _).nodup_iff).mpr hn
  have hk : (srt.sort (recomputed srt m f rng)._followerData).map FormationFollower.key
      = (srt.sort f._followerData).map FormationFollower.key :=
    sort_keys_eq srt _ _ (by rw [recomputed_keys]) (srt.sorted _) hn'
  have hlen := recomputed_length srt m f rng
  simp only [recomputed] at hk hlen ⊢
  congr 1
  rw [offsetsFrom_congr m
    ({ f with _followerData := offsetsFrom m f (srt.sort f._followerData) 0 rng }) f rfl rfl
    hlen _ _ 0 rng' hk]
  exact offsetsFrom_rng m f hty _ _ _ _

end RecomputedLemmas

section Claims

variable {F : Type} [LinearOrderedField F] [FloorRing F]

/-- The geometry of a recomputed formation is the geometry of the formation before. -/
theorem calculate_recomputed (srt : StdSort F) (m : Libm F) (f : AIFormation F)
    (rng r i : Nat) :
    CalculateFormationOffsets m (recomputed srt m f rng) r i
      = CalculateFormationOffsets m f r i :=
  calculate_congr m _ _ r i rfl rfl (recomputed_length srt m f rng)

/-- Outside Random the offsets of a recomputed formation are those of the slots, in order. -/
theorem recomputed_offsets (srt : StdSort F) (m : Libm F) (f : AIFormation F) (rng : Nat)
    (hty : f._formationType ≠ AIFormationType.Random) :
    (recomputed srt m f rng)._followerData.map (fun a => a.FormationOffsets)
      = (List.range' 0 f._followerData.length).map
          (fun j => (CalculateFormationOffsets m f 0 j).1) := by
  simp only [recomputed]
  rw [map_offsets_offsetsFrom m f hty, (srt.perm _).length_eq]

/-- C6 (amended): when every member resolves and the topology is not Random,
`UpdateFormationOffsetsForAllFollowers` completes; afterwards the members (guid and
FormationPosition) are a permutation of the members before, the list is sorted ascending by
FormationPosition, and the member in list slot `k` holds exactly the offset
`CalculateFormationOffsets(k)`, for every `k` below the follower count. The order among members
of equal FormationPosition is whatever `std::sort` leaves. -/
theorem C6_recompute_sorted_offsets (srt : StdSort F) (m : Libm F) (s : State F)
    (hty : s.formation._formationType ≠ AIFormationType.Random)
    (hres : ∀ fd ∈ s.formation._followerData, (s.units fd.GUID).isSome) :
    ∃ s', UpdateFormationOffsetsForAllFollowers srt m s = some s'
      ∧ (s'.formation._followerData.map FormationFollower.key).Perm
          (s.formation._followerData.map FormationFollower.key)
      ∧ s'.formation._followerData.Sorted (fun a b => a.FormationPosition ≤ b.FormationPosition)
      ∧ s'.formation._followerData.length = s.formation._followerData.length
      ∧ ∀ (k : Nat) (hk : k < s'.formation._followerData.length),
          (s'.formation._followerData.get ⟨k, hk⟩).FormationOffsets
            = (CalculateFormationOffsets m s'.formation s'.rng k).1 := by
  obtain ⟨s', h1, h2, -, -, -⟩ := update_some srt m s hres
  refine ⟨s', h1, ?_, ?_, ?_, ?_⟩
  · rw [h2]; exact recomputed_perm srt m _ _
  · rw [h2]
    exact (recomputed_sorted srt m _ _).imp (fun h => Nat.not_lt.mp h)
  · rw [h2]; exact recomputed_length srt m _ _
  · intro k hk
    have hc : ∀ r, CalculateFormationOffsets m s'.formation r k
        = CalculateFormationOffsets m s.formation r k := fun r =>
      calculate_congr m _ _ r k (by rw [h2]; rfl) (by rw [h2]; rfl)
        (by rw [h2]; exact recomputed_length srt m _ _)
    rw [hc]
    have hk' : k < (offsetsFrom m s.formation (srt.sort s.formation._followerData) 0 s.rng).length := by
      have := hk
      rw [h2] at this
      exact this
    have e := getElem_offsetsFrom m s.formation hty (srt.sort s.formation._followerData) 0 s.rng
      s'.rng k hk'
    simp only [Nat.zero_add] at e
    rw [← e]
    congr 1
    simp only [List.get_eq_getElem]
    congr 1
    rw [h2]; rfl

/-- Outside Random, a second recomputation right after a completed first one completes as well
and leaves, slot by slot, the same offsets and FormationPositions, with the same members; with
pairwise distinct FormationPositions it leaves the formation exactly as the first call did. -/
theorem recompute_after_recompute (srt : StdSort F) (m : Libm F) (s s1 : State F)
    (hty : s.formation._formationType ≠ AIFormationType.Random)
    (h1 : UpdateFormationOffsetsForAllFollowers srt m s = some s1) :
    ∃ s2, UpdateFormationOffsetsForAllFollowers srt m s1 = some s2
      ∧ s2.formation._followerData.map (fun a => a.FormationOffsets)
          = s1.formation._followerData.map (fun a => a.FormationOffsets)
      ∧ s2.formation._followerData.map (fun a => a.FormationPosition)
          = s1.formation._followerData.map (fun a => a.FormationPosition)
      ∧ (s2.formation._followerData.map FormationFollower.key).Perm
          (s1.formation._followerData.map FormationFollower.key)
      ∧ ((s.formation._followerData.map (fun a => a.FormationPosition)).Nodup →
          s2.formation = s1.formation) := by
  have hres := update_resolves srt m s s1 h1
  obtain ⟨s1', e1, hf1, hu1, -, hr1⟩ := update_some srt m s hres
  have hs : s1' = s1 := Option.some.inj (e1.symm.trans h1)
  subst hs
  have hres1 : ∀ fd ∈ s1'.formation._followerData, (s1'.units fd.GUID).isSome := by
    rw [hf1]
    apply recomputed_forall_guid srt m s.formation s.rng (fun g => (s1'.units g).isSome = true)
    intro fd hfd
    rw [hu1]; exact hres fd hfd
  obtain ⟨s2, e2, hf2, -, -, -⟩ := update_some srt m s1' hres1
  have hty1 : (recomputed srt m s.formation s.rng)._formationType ≠ AIFormationType.Random := hty
  refine ⟨s2, e2, ?_, ?_, ?_, ?_⟩
  · rw [hf2, hf1, recomputed_offsets srt m _ _ hty1, recomputed_offsets srt m _ _ hty,
      recomputed_length]
    apply List.map_congr_left
    intro j _
    rw [calculate_recomputed]
  · rw [hf2]
    have h := sort_positions_eq srt s1'.formation._followerData s1'.formation._followerData
      (List.Perm.refl _) (by rw [hf1]; exact recomputed_sorted srt m _ _)
    have hk := congrArg (List.map Prod.snd) (recomputed_keys srt m s1'.formation s1'.rng)
    simp only [List.map_map] at hk
    simpa [FormationFollower.key, Function.comp_def] using hk.trans (by simpa [Function.comp_def] using h)
  · rw [hf2]; exact recomputed_perm srt m _ _
  · intro hn
    rw [hf2, hf1]
    exact recomputed_recomputed srt m s.formation s.rng s1'.rng hty hn

end Claims

section AddRemoveLemmas

variable {F : Type} [LinearOrderedField F] [FloorRing F]

/-- `AddFollower` completes when the members and the new follower resolve. The formation is
the recomputed formation with the new record appended; the offset of the `MoveFormation`
request is the one stored in the last slot of the sorted vector. -/
theorem addFollower_some (srt : StdSort F) (m : Libm F) (s : State F) (follower : ObjectGuid)
    (formationPosition : Nat)
    (hres : ∀ fd ∈ s.formation._followerData, (s.units fd.GUID).isSome)
    (hf : (s.units follower).isSome) :
    ∃ s1 last, AddFollower srt m s follower formationPosition = some s1
      ∧ s1.formation = recomputed srt m
          { s.formation with
            _followerData :=
              s.formation._followerData ++ [FormationFollower.new follower formationPosition] }
          s.rng
      ∧ (∀ g, (s1.units g).isSome = (s.units g).isSome)
      ∧ (s.formation._formationType ≠ AIFormationType.Random → s1.rng = s.rng)
      ∧ s1.formation._followerData.getLast? = some last
      ∧ s1.trace.getLast?
          = some (Event.moveFormation follower s.formation._owner last.FormationOffsets) := by
  have hres' : ∀ fd ∈ s.formation._followerData ++ [FormationFollower.new follower formationPosition],
      (s.units fd.GUID).isSome := by
    intro fd hfd
    rcases List.mem_append.mp hfd with h | h
    · exact hres fd h
    · rw [List.mem_singleton.mp h]; exact hf
  obtain ⟨s2, e2, hf2, hu2, -, hr2⟩ := update_some srt m
    { s with formation :=
        { s.formation with
          _followerData :=
            s.formation._followerData ++ [FormationFollower.new follower formationPosition] } }
    hres'
  have hne : s2.formation._followerData ≠ [] := by
    intro h
    have := congrArg List.length h
    rw [hf2, recomputed_length] at this
    simp at this
  obtain ⟨last, hlast⟩ : ∃ last, s2.formation._followerData.getLast? = some last :=
    ⟨_, List.getLast?_eq_getLast _ hne⟩
  obtain ⟨u, hu⟩ := Option.isSome_iff_exists.mp ((hu2 follower).trans hf)
  have hown : s2.formation._owner = s.formation._owner := by rw [hf2]; rfl
  have hA : AddFollower srt m s follower formationPosition = some
      { s2 with
        units := Function.update s2.units follower
          (some (if (u.MoveFormation s2.formation._owner last.FormationOffsets).isCreature then
            { u.MoveFormation s2.formation._owner last.FormationOffsets with
              formationLeaderGUID := some s2.formation._owner }
            else u.MoveFormation s2.formation._owner last.FormationOffsets))
        trace := s2.trace ++
          [Event.moveFormation follower s2.formation._owner last.FormationOffsets] } := by
    simp only [AddFollower, e2, hlast, hu]
  refine ⟨_, last, hA, hf2, ?_, hr2, hlast, ?_⟩
  · intro g
    simp only
    rw [isSome_update_some _ _ _ (by simp [hu])]
    exact hu2 g
  · simp [hown]

end AddRemoveLemmas

/-- Erasing the first record of a guid commutes with reading the identities. -/
theorem map_key_eraseP {F : Type} (g : ObjectGuid) :
    ∀ (l : List (FormationFollower F)),
      (l.eraseP (fun itr => itr.GUID == g)).map FormationFollower.key
        = (l.map FormationFollower.key).eraseP (fun k => k.1 == g)
  | [] => rfl
  | a :: rest => by
    by_cases h : a.GUID = g
    · simp [List.eraseP_cons, h, FormationFollower.key]
    · simp [List.eraseP_cons, h, FormationFollower.key]
      exact map_key_eraseP g rest

/-- Erasing the guid of a freshly added follower from any arrangement of the old members plus
the new record leaves the old members. -/
theorem perm_eraseP_added {F : Type} [Zero F] (g : ObjectGuid) (p : Nat) (L X : List (FormationFollower F))
    (hnew : ∀ fd ∈ L, fd.GUID ≠ g)
    (hX : (X.map FormationFollower.key).Perm
      ((L ++ [FormationFollower.new g p]).map FormationFollower.key)) :
    ((X.eraseP (fun itr => itr.GUID == g)).map FormationFollower.key).Perm
      (L.map FormationFollower.key) := by
  rw [map_key_eraseP]
  have hL : ∀ k ∈ L.map FormationFollower.key, ¬ ((k.1 == g) = true) := by
    intro k hk
    obtain ⟨fd, hfd, rfl⟩ := List.mem_map.mp hk
    simpa [FormationFollower.key] using hnew fd hfd
  have hpw : ((L ++ [FormationFollower.new g p]).map FormationFollower.key).Pairwise
      (fun (a b : ObjectGuid × Nat) => ((a.1 == g) = true) → ((b.1 == g) = true) → False) := by
    rw [List.map_append, List.pairwise_append]
    refine ⟨?_, by simp, ?_⟩
    · exact List.Pairwise.imp_of_mem (fun {a b} ha _ _ h _ => hL a ha h)
        (List.pairwise_of_forall (fun _ _ => trivial))
    · intro a ha _ _ h _
      exact hL a ha h
  have h1 := (List.Perm.eraseP (fun k : ObjectGuid × Nat => k.1 == g) hpw hX.symm).symm
  refine h1.trans ?_
  rw [List.map_append, List.eraseP_append_right _ hL]
  simp [FormationFollower.key, FormationFollower.new]

section RemoveLemmas

variable {F : Type} [LinearOrderedField F] [FloorRing F]

/-- C9: `RemoveFollower` of a unit whose guid matches no membership record returns the state it
was given: the membership list with its order, formation positions and stored offsets, the
units with their movement slots, and the record of calls (no recomputation, no evaluation of
the geometry) are all unchanged. -/
theorem C9_remove_non_member (srt : StdSort F) (m : Libm F) (s : State F) (follower : ObjectGuid)
    (hnot : ∀ fd ∈ s.formation._followerData, fd.GUID ≠ follower) :
    RemoveFollower srt m s follower = some s := by
  have h : s.formation._followerData.find? (fun itr => itr.GUID == follower) = none := by
    rw [List.find?_eq_none]
    intro fd hfd
    simpa using hnot fd hfd
  simp only [RemoveFollower, h]

/-- C10: when the formation has exactly one member, `RemoveFollower` of that member completes
with an empty membership list, and neither a recomputation nor an evaluation of
`CalculateFormationOffsets` is recorded (the record of calls and the `frand` counter are as
before), for every topology. -/
theorem C10_remove_last_member (srt : StdSort F) (m : Libm F) (s : State F)
    (fd : FormationFollower F) :
    ∃ s', RemoveFollower srt m
        { s with formation := { s.formation with _followerData := [fd] } } fd.GUID = some s'
      ∧ s'.formation._followerData = []
      ∧ s'.formation = { s.formation with _followerData := [] }
      ∧ s'.trace = s.trace
      ∧ s'.rng = s.rng := by
  simp [RemoveFollower]

end RemoveLemmas

section RoundTrip

variable {F : Type} [LinearOrderedField F] [FloorRing F]

/-- `RemoveFollower` of a member, all members resolving: it completes; the formation is left
without records when the member was the only one, and is otherwise the recomputed formation of
the remaining records. -/
theorem removeFollower_member (srt : StdSort F) (m : Libm F) (s : State F) (g : ObjectGuid)
    (hmem : ∃ fd ∈ s.formation._followerData, fd.GUID = g)
    (hres : ∀ fd ∈ s.formation._followerData, (s.units fd.GUID).isSome) :
    ∃ s2, RemoveFollower srt m s g = some s2
      ∧ ((s.formation._followerData.eraseP (fun itr => itr.GUID == g) = []
            ∧ s2.formation = { s.formation with _followerData := [] })
          ∨ (s.formation._followerData.eraseP (fun itr => itr.GUID == g) ≠ []
            ∧ s2.formation = recomputed srt m
                { s.formation with
                  _followerData := s.formation._followerData.eraseP (fun itr => itr.GUID == g) }
                s.rng)) := by
  obtain ⟨fd0, hfd0, hg0⟩ := hmem
  have hsome : (s.formation._followerData.find? (fun itr => itr.GUID == g)).isSome := by
    rw [List.find?_isSome]
    exact ⟨fd0, hfd0, by simp [hg0]⟩
  obtain ⟨itr, hitr⟩ := Option.isSome_iff_exists.mp hsome
  have hitr_mem : itr ∈ s.formation._followerData := List.mem_of_find?_eq_some hitr
  obtain ⟨u, hu⟩ := Option.isSome_iff_exists.mp (hres itr hitr_mem)
  by_cases hemp : s.formation._followerData.eraseP (fun itr => itr.GUID == g) = []
  · have hR : RemoveFollower srt m s g = some
        { s with
          formation := { s.formation with _followerData := [] }
          units := Function.update s.units itr.GUID (some u.leaveFormation) } := by
      simp only [RemoveFollower, hitr, hu, hemp, List.isEmpty_nil, if_true]
    exact ⟨_, hR, Or.inl ⟨hemp, rfl⟩⟩
  · have hres' : ∀ fd ∈ s.formation._followerData.eraseP (fun itr => itr.GUID == g),
        ((Function.update s.units itr.GUID (some u.leaveFormation)) fd.GUID).isSome := by
      intro fd hfd
      rw [isSome_update_some _ _ _ (by simp [hu])]
      exact hres fd (List.mem_of_mem_eraseP hfd)
    obtain ⟨s2, e2, hf2, -, -, -⟩ := update_some srt m
      { s with
        formation :=
          { s.formation with
            _followerData := s.formation._followerData.eraseP (fun itr => itr.GUID == g) }
        units := Function.update s.units itr.GUID (some u.leaveFormation) } hres'
    refine ⟨s2, ?_, Or.inr ⟨hemp, hf2⟩⟩
    have hne : (s.formation._followerData.eraseP (fun itr => itr.GUID == g)).isEmpty = false := by
      cases h : s.formation._followerData.eraseP (fun itr => itr.GUID == g) with
      | nil => exact absurd h hemp
      | cons _ _ => rfl
    simp only [RemoveFollower, hitr, hu, hne]
    exact e2

end RoundTrip

section RoundTripClaim

variable {F : Type} [LinearOrderedField F] [FloorRing F]

/-- Outside Random, from a state that is the result of a recomputation, adding a resolvable
non-member and removing it again restores, slot by slot, the offsets and FormationPositions,
with the same members; with pairwise distinct FormationPositions it restores the formation. -/
theorem add_then_remove_after_recompute (srt : StdSort F) (m : Libm F) (s₀ s : State F) (f : ObjectGuid)
    (p : Nat)
    (hty : s.formation._formationType ≠ AIFormationType.Random)
    (hrec : UpdateFormationOffsetsForAllFollowers srt m s₀ = some s)
    (hnew : ∀ fd ∈ s.formation._followerData, fd.GUID ≠ f)
    (hf : (s.units f).isSome) :
    ∃ s1 s2, AddFollower srt m s f p = some s1 ∧ RemoveFollower srt m s1 f = some s2
      ∧ s2.formation._followerData.map (fun a => a.FormationOffsets)
          = s.formation._followerData.map (fun a => a.FormationOffsets)
      ∧ s2.formation._followerData.map (fun a => a.FormationPosition)
          = s.formation._followerData.map (fun a => a.FormationPosition)
      ∧ (s2.formation._followerData.map FormationFollower.key).Perm
          (s.formation._followerData.map FormationFollower.key)
      ∧ ((s.formation._followerData.map (fun a => a.FormationPosition)).Nodup →
          s2.formation = s.formation) := by
  have hres₀ := update_resolves srt m s₀ s hrec
  obtain ⟨s', e, hfs, hus, -, -⟩ := update_some srt m s₀ hres₀
  have hs : s' = s := Option.some.inj (e.symm.trans hrec)
  subst hs
  have hty₀ : s₀.formation._formationType ≠ AIFormationType.Random := by
    rw [hfs] at hty; exact hty
  have hres : ∀ fd ∈ s'.formation._followerData, (s'.units fd.GUID).isSome := by
    rw [hfs]
    apply recomputed_forall_guid srt m s₀.formation s₀.rng (fun g => (s'.units g).isSome = true)
    intro fd hfd
    rw [hus]; exact hres₀ fd hfd
  obtain ⟨s1, last, hA, hf1, hu1, -, -, -⟩ := addFollower_some srt m s' f p hres hf
  have hperm1 : (s1.formation._followerData.map FormationFollower.key).Perm
      ((s'.formation._followerData ++ [FormationFollower.new f p]).map FormationFollower.key) := by
    rw [hf1]; exact recomputed_perm srt m _ _
  have hmem1 : ∃ fd ∈ s1.formation._followerData, fd.GUID = f := by
    have : FormationFollower.key (FormationFollower.new f p : FormationFollower F)
        ∈ s1.formation._followerData.map FormationFollower.key :=
      hperm1.symm.subset (List.mem_map_of_mem _ (by simp))
    obtain ⟨fd, hfd, hk⟩ := List.mem_map.mp this
    exact ⟨fd, hfd, congrArg Prod.fst hk⟩
  have hres1 : ∀ fd ∈ s1.formation._followerData, (s1.units fd.GUID).isSome := by
    rw [hf1]
    apply recomputed_forall_guid srt m _ s'.rng (fun g => (s1.units g).isSome = true)
    intro fd hfd
    rw [hu1]
    rcases List.mem_append.mp hfd with h | h
    · exact hres fd h
    · rw [List.mem_singleton.mp h]; exact hf
  obtain ⟨s2, hR, hcase⟩ := removeFollower_member srt m s1 f hmem1 hres1
  have hE := perm_eraseP_added f p s'.formation._followerData s1.formation._followerData
    hnew hperm1
  have hsorted : s'.formation._followerData.Pairwise
      (fun a b => ¬ b.FormationPosition < a.FormationPosition) := by
    rw [hfs]; exact recomputed_sorted srt m _ _
  refine ⟨s1, s2, hA, hR, ?_⟩
  rcases hcase with ⟨hemp, hf2⟩ | ⟨-, hf2⟩
  · rw [hemp] at hE
    have hnil : s'.formation._followerData = [] := by
      have := hE.symm.length_eq
      simpa using this
    have hdata : s2.formation._followerData = [] := by rw [hf2]
    refine ⟨by rw [hdata, hnil], by rw [hdata, hnil], by rw [hdata, hnil], fun _ => ?_⟩
    rw [hf2, hf1]
    simp only [recomputed]
    rw [← hnil]
  · have hg : ({ s1.formation with
          _followerData := s1.formation._followerData.eraseP (fun itr => itr.GUID == f) }
          : AIFormation F)
        = { s'.formation with
            _followerData := s1.formation._followerData.eraseP (fun itr => itr.GUID == f) } := by
      rw [hf1]; rfl
    rw [hg] at hf2
    generalize s1.formation._followerData.eraseP (fun itr => itr.GUID == f) = E at hE hf2
    have hlenE : E.length = s'.formation._followerData.length := by
      simpa using hE.length_eq
    have hlen₀ : s'.formation._followerData.length = s₀.formation._followerData.length := by
      rw [hfs]; exact recomputed_length srt m _ _
    refine ⟨?_, ?_, ?_, ?_⟩
    · rw [hf2, recomputed_offsets srt m ({ s'.formation with _followerData := E }) s1.rng hty]
      conv_rhs => rw [hfs, recomputed_offsets srt m _ _ hty₀]
      have hl : ({ s'.formation with _followerData := E } : AIFormation F)._followerData.length
          = s₀.formation._followerData.length := hlenE.trans hlen₀
      rw [hl]
      apply List.map_congr_left
      intro j _
      rw [calculate_congr m ({ s'.formation with _followerData := E }) s₀.formation 0 j
        (by rw [hfs]; rfl) (by rw [hfs]; rfl) hl]
    · rw [hf2]
      have h := sort_positions_eq srt E s'.formation._followerData hE hsorted
      have hk := congrArg (List.map Prod.snd)
        (recomputed_keys srt m ({ s'.formation with _followerData := E }) s1.rng)
      simp only [List.map_map] at hk
      simpa [FormationFollower.key, Function.comp_def] using
        hk.trans (by simpa [Function.comp_def] using h)
    · rw [hf2]
      exact (recomputed_perm srt m _ _).trans hE
    · intro hn
      have hn₀ : (s₀.formation._followerData.map (fun a => a.FormationPosition)).Nodup := by
        have hp := (recomputed_perm srt m s₀.formation s₀.rng).map Prod.snd
        rw [← hfs] at hp
        simp only [List.map_map, FormationFollower.key, Function.comp_def] at hp
        exact hp.nodup_iff.mp hn
      have hnS : ((srt.sort s'.formation._followerData).map
          (fun a => a.FormationPosition)).Nodup :=
        (((srt.perm _).map _).nodup_iff).mpr hn
      have hk : (srt.sort E).map FormationFollower.key
          = (srt.sort s'.formation._followerData).map FormationFollower.key :=
        sort_keys_eq srt E _ (hE.trans ((srt.perm _).map _).symm) (srt.sorted _) hnS
      rw [hf2, recomputed_congr srt m s'.formation E s'.formation._followerData s1.rng hk]
      have hself : ({ s'.formation with _followerData := s'.formation._followerData }
          : AIFormation F) = s'.formation := rfl
      rw [hself]
      conv_lhs => rw [hfs]
      rw [recomputed_recomputed srt m s₀.formation s₀.rng s1.rng hty₀ hn₀, ← hfs]

end RoundTripClaim

/-- C1: SingleFile with radius 1 and members 10 and 20 at formation positions 1 and 2; a
follower 30 is added with formation position 0. Whatever `std::sort` is used, `AddFollower`
completes, the new follower stands in slot 0 with stored offset `(-1, 0)`, and the offset of
the `MoveFormation` request it receives is `(-3, 0)`, the offset stored for member 20 in the
last slot. -/
theorem C1_addFollower_hands_last_slot (srt : StdSort ℚ) :
    ∃ s1, AddFollower srt libmQ
        (stateQ [⟨10, 1, ⟨-1, 0, 0, 0⟩⟩, ⟨20, 2, ⟨-2, 0, 0, 0⟩⟩] AIFormationType.SingleFile 1)
        30 0 = some s1
      ∧ s1.formation._followerData
          = [⟨30, 0, ⟨-1, 0, 0, 0⟩⟩, ⟨10, 1, ⟨-2, 0, 0, 0⟩⟩, ⟨20, 2, ⟨-3, 0, 0, 0⟩⟩]
      ∧ s1.trace.getLast? = some (Event.moveFormation 30 1 ⟨-3, 0, 0, 0⟩) := by
  obtain ⟨s1, last, hA, hf1, -, -, hlast, htrace⟩ := addFollower_some srt libmQ
    (stateQ [⟨10, 1, ⟨-1, 0, 0, 0⟩⟩, ⟨20, 2, ⟨-2, 0, 0, 0⟩⟩] AIFormationType.SingleFile 1) 30 0
    (fun _ _ => rfl) rfl
  have hk : (srt.sort ([⟨10, 1, ⟨-1, 0, 0, 0⟩⟩, ⟨20, 2, ⟨-2, 0, 0, 0⟩⟩]
        ++ [FormationFollower.new 30 0])).map FormationFollower.key
      = ([⟨30, 0, Position.origin⟩, ⟨10, 1, Position.origin⟩, ⟨20, 2, Position.origin⟩]
          : List (FormationFollower ℚ)).map FormationFollower.key := by
    apply sort_keys_eq
    · simp only [FormationFollower.key, FormationFollower.new, List.map, List.cons_append,
        List.nil_append]
      decide
    · simp
    · simp
  have hdata : s1.formation._followerData
      = [⟨30, 0, ⟨-1, 0, 0, 0⟩⟩, ⟨10, 1, ⟨-2, 0, 0, 0⟩⟩, ⟨20, 2, ⟨-3, 0, 0, 0⟩⟩] := by
    rw [hf1]
    simp only [recomputed, stateQ]
    rw [offsetsFrom_congr libmQ _ _ rfl rfl rfl _ _ 0 0 hk]
    simp [offsetsFrom, CalculateFormationOffsets, AIFormationType.SingleFile,
      Position.RelocateOffset, Position.origin]
  refine ⟨s1, hA, hdata, ?_⟩
  rw [hdata] at hlast
  have : last = ⟨20, 2, ⟨-3, 0, 0, 0⟩⟩ := by
    simpa using hlast.symm
  rw [htrace, this]
  rfl

section ClaimForms

variable {F : Type} [LinearOrderedField F] [FloorRing F]

/-- C7 (amended): outside Random, with every member resolving, two calls of
`UpdateFormationOffsetsForAllFollowers` in succession both complete, and the second leaves,
slot by slot, the same offsets and the same FormationPositions as the first, with the same
members; when the members' FormationPositions are pairwise distinct the second call leaves
the formation (member order and every member's offset) exactly as the first call left it. -/
theorem C7_recompute_twice (srt : StdSort F) (m : Libm F) (s : State F)
    (hty : s.formation._formationType ≠ AIFormationType.Random)
    (hres : ∀ fd ∈ s.formation._followerData, (s.units fd.GUID).isSome) :
    ∃ s1 s2, UpdateFormationOffsetsForAllFollowers srt m s = some s1
      ∧ UpdateFormationOffsetsForAllFollowers srt m s1 = some s2
      ∧ s2.formation._followerData.map (fun a => a.FormationOffsets)
          = s1.formation._followerData.map (fun a => a.FormationOffsets)
      ∧ s2.formation._followerData.map (fun a => a.FormationPosition)
          = s1.formation._followerData.map (fun a => a.FormationPosition)
      ∧ (s2.formation._followerData.map FormationFollower.key).Perm
          (s1.formation._followerData.map FormationFollower.key)
      ∧ ((s.formation._followerData.map (fun a => a.FormationPosition)).Nodup →
          s2.formation = s1.formation) := by
  obtain ⟨s1, e1, -⟩ := update_some srt m s hres
  obtain ⟨s2, h⟩ := recompute_after_recompute srt m s s1 hty e1
  exact ⟨s1, s2, e1, h⟩

/-- C8 (amended): for a non-Random formation whose members all resolve and a resolvable
follower `f` that is not a member, take the state `s` a recomputation leaves. Then
`AddFollower(f, p)` followed by `RemoveFollower(f)` completes for every formationPosition `p`
and restores, slot by slot, the offsets and the FormationPositions of `s`, with the same
members; when the members' FormationPositions are pairwise distinct it restores the formation
of `s` exactly (every original member in its slot with its offset). -/
theorem C8_add_then_remove (srt : StdSort F) (m : Libm F) (s₀ : State F) (f : ObjectGuid)
    (p : Nat)
    (hty : s₀.formation._formationType ≠ AIFormationType.Random)
    (hres : ∀ fd ∈ s₀.formation._followerData, (s₀.units fd.GUID).isSome)
    (hnew : ∀ fd ∈ s₀.formation._followerData, fd.GUID ≠ f)
    (hf : (s₀.units f).isSome) :
    ∃ s s1 s2, UpdateFormationOffsetsForAllFollowers srt m s₀ = some s
      ∧ AddFollower srt m s f p = some s1 ∧ RemoveFollower srt m s1 f = some s2
      ∧ s2.formation._followerData.map (fun a => a.FormationOffsets)
          = s.formation._followerData.map (fun a => a.FormationOffsets)
      ∧ s2.formation._followerData.map (fun a => a.FormationPosition)
          = s.formation._followerData.map (fun a => a.FormationPosition)
      ∧ (s2.formation._followerData.map FormationFollower.key).Perm
          (s.formation._followerData.map FormationFollower.key)
      ∧ ((s.formation._followerData.map (fun a => a.FormationPosition)).Nodup →
          s2.formation = s.formation) := by
  obtain ⟨s, e, hfs, hus, -, -⟩ := update_some srt m s₀ hres
  have hty' : s.formation._formationType ≠ AIFormationType.Random := by rw [hfs]; exact hty
  have hnew' : ∀ fd ∈ s.formation._followerData, fd.GUID ≠ f := by
    rw [hfs]
    exact recomputed_forall_guid srt m s₀.formation s₀.rng (fun g => g ≠ f) hnew
  have hf' : (s.units f).isSome := (hus f).trans hf
  obtain ⟨s1, s2, h⟩ := add_then_remove_after_recompute srt m s₀ s f p hty' e hnew' hf'
  exact ⟨s, s1, s2, e, h⟩

end ClaimForms

/-! ## Evaluations at concrete inputs -/

/-- C6, the stability part refuted: seventeen members 1, ..., 17, in this order, share
FormationPosition 0 (SingleFile, radius 1). The `std::sort` of libstdc++ partitions a range of
more than 16 records, and `UpdateFormationOffsetsForAllFollowers` leaves the members in the
order 9, 17, 16, ..., 10, 1, 8, 7, ..., 2: members of equal position did not keep their
order. -/
theorem C6_equal_positions_reordered :
    (std_sort (tiedFollowersQ 17)).map (fun l => l.map (fun a => a.GUID))
      = some [9, 17, 16, 15, 14, 13, 12, 11, 10, 1, 8, 7, 6, 5, 4, 3, 2]
    ∧ (UpdateFormationOffsetsForAllFollowers libstdcxxStdSort libmQ
        (stateQ (tiedFollowersQ 17) AIFormationType.SingleFile 1)).map
      (fun s => s.formation._followerData.map (fun a => (a.GUID, a.FormationPosition)))
      = some [(9, 0), (17, 0), (16, 0), (15, 0), (14, 0), (13, 0), (12, 0), (11, 0), (10, 0),
          (1, 0), (8, 0), (7, 0), (6, 0), (5, 0), (4, 0), (3, 0), (2, 0)] := by
  decide!

/-- C7 refuted as stated: seventeen members 1, ..., 17 share FormationPosition 0 (SingleFile,
radius 1). With the `std::sort` of libstdc++ one recomputation leaves the member order
9, 17, 16, ..., 10, 1, 8, ..., 2 and two recomputations in succession leave
10, 2, 3, ..., 8, 1, 9, 11, ..., 17: the second call moved members to other slots, member 9
from the offset `(-1, 0)` to `(-10, 0)`. Each member is listed with the X of its offset. -/
theorem C7_second_call_reorders :
    (UpdateFormationOffsetsForAllFollowers libstdcxxStdSort libmQ
        (stateQ (tiedFollowersQ 17) AIFormationType.SingleFile 1)).map
      (fun s => s.formation._followerData.map (fun a => (a.GUID, a.FormationOffsets.m_positionX)))
      = some [(9, -1), (17, -2), (16, -3), (15, -4), (14, -5), (13, -6), (12, -7),
          (11, -8), (10, -9), (1, -10), (8, -11), (7, -12), (6, -13), (5, -14),
          (4, -15), (3, -16), (2, -17)]
    ∧ ((UpdateFormationOffsetsForAllFollowers libstdcxxStdSort libmQ
        (stateQ (tiedFollowersQ 17) AIFormationType.SingleFile 1)).bind
        (UpdateFormationOffsetsForAllFollowers libstdcxxStdSort libmQ)).map
      (fun s => s.formation._followerData.map (fun a => (a.GUID, a.FormationOffsets.m_positionX)))
      = some [(10, -1), (2, -2), (3, -3), (4, -4), (5, -5), (6, -6), (7, -7), (8, -8),
          (1, -9), (9, -10), (11, -11), (12, -12), (13, -13), (14, -14), (15, -15),
          (16, -16), (17, -17)] := by
  decide!

/-- C8 refuted as stated: SingleFile with radius 1, sixteen members at FormationPosition 0
standing in the order 1, ..., 16 after a recomputation. With the `std::sort` of libstdc++,
adding follower 17 (position 0) sorts seventeen records, and removing it again leaves the
members in the order 9, 16, 15, ..., 10, 1, 8, 7, ..., 2: member 1 went from the offset
`(-1, 0)` to `(-9, 0)`. Each member is listed with the X of its offset. -/
theorem C8_round_trip_reorders :
    (UpdateFormationOffsetsForAllFollowers libstdcxxStdSort libmQ
        (stateQ (tiedFollowersQ 16) AIFormationType.SingleFile 1)).map
      (fun s => s.formation._followerData.map (fun a => (a.GUID, a.FormationOffsets.m_positionX)))
      = some [(1, -1), (2, -2), (3, -3), (4, -4), (5, -5), (6, -6), (7, -7), (8, -8),
          (9, -9), (10, -10), (11, -11), (12, -12), (13, -13), (14, -14), (15, -15),
          (16, -16)]
    ∧ ((UpdateFormationOffsetsForAllFollowers libstdcxxStdSort libmQ
        (stateQ (tiedFollowersQ 16) AIFormationType.SingleFile 1)).bind
        (fun s => (AddFollower libstdcxxStdSort libmQ s 17 0).bind
          (fun s1 => RemoveFollower libstdcxxStdSort libmQ s1 17))).map
      (fun s => s.formation._followerData.map (fun a => (a.GUID, a.FormationOffsets.m_positionX)))
      = some [(9, -1), (16, -2), (15, -3), (14, -4), (13, -5), (12, -6), (11, -7),
          (10, -8), (1, -9), (8, -10), (7, -11), (6, -12), (5, -13), (4, -14),
          (3, -15), (2, -16)] := by
  decide!

/-- Witness for C4: two followers on a circle of radius 3; index 0 stands at `(3, 0)`. -/
theorem C4_circle_offsets_witness :
    (1 ≤ 2 ∧ 0 < 2) ∧
    (CalculateFormationOffsets (⟨Real.cos, Real.sin, Real.pi, fun _ _ _ => 0⟩ : Libm ℝ)
      ⟨1, [FormationFollower.new 1 0, FormationFollower.new 2 0],
        AIFormationType.CircleLeader, 3, 0, 1200⟩ 0 0).1 = ⟨3, 0, 0, 0⟩ :=
  ⟨⟨by decide, by decide⟩,
    (C4_circle_offsets (fun _ _ _ => 0)
      ⟨1, [FormationFollower.new 1 0, FormationFollower.new 2 0],
        AIFormationType.CircleLeader, 3, 0, 1200⟩ 0 0 (by simp) (by simp)).2.2.2.2⟩

/-- Witness for C5: two followers fanned out with radius 3; at index 0 the two variants share
Y. -/
theorem C5_fanned_offsets_witness :
    (1 ≤ 2 ∧ 0 < 2) ∧
    (CalculateFormationOffsets (⟨Real.cos, Real.sin, Real.pi, fun _ _ _ => 0⟩ : Libm ℝ)
      ⟨1, [FormationFollower.new 1 0, FormationFollower.new 2 0],
        AIFormationType.FannedOutInFrontOfLeader, 3, 0, 1200⟩ 0 0).1.m_positionY
      = (CalculateFormationOffsets (⟨Real.cos, Real.sin, Real.pi, fun _ _ _ => 0⟩ : Libm ℝ)
      ⟨1, [FormationFollower.new 1 0, FormationFollower.new 2 0],
        AIFormationType.FannedOutBehindLeader, 3, 0, 1200⟩ 0 0).1.m_positionY :=
  ⟨⟨by decide, by decide⟩,
    (C5_fanned_offsets (fun _ _ _ => 0)
      ⟨1, [FormationFollower.new 1 0, FormationFollower.new 2 0],
        AIFormationType.SingleFile, 3, 0, 1200⟩ 0 0 (by simp) (by simp)).2.2.1⟩

/-- Witness for C6: SingleFile, members 7 and 8 at positions 2 and 1, every unit resolving. -/
theorem C6_recompute_sorted_offsets_witness :
    ∃ s', UpdateFormationOffsetsForAllFollowers insertionStdSort libmQ
        (stateQ [FormationFollower.new 7 2, FormationFollower.new 8 1]
          AIFormationType.SingleFile 1) = some s'
      ∧ s'.formation._followerData.Sorted
          (fun a b => a.FormationPosition ≤ b.FormationPosition)
      ∧ s'.formation._followerData.length = 2 :=
  have h := C6_recompute_sorted_offsets insertionStdSort libmQ
    (stateQ [FormationFollower.new 7 2, FormationFollower.new 8 1] AIFormationType.SingleFile 1)
    (by decide) (fun _ _ => rfl)
  h.imp (fun _ h' => ⟨h'.1, h'.2.2.1, h'.2.2.2.1⟩)

/-- Witness for C7: SingleFile, members 7 and 8 at the distinct positions 2 and 1. -/
theorem C7_recompute_twice_witness :
    ∃ s1 s2, UpdateFormationOffsetsForAllFollowers insertionStdSort libmQ
        (stateQ [FormationFollower.new 7 2, FormationFollower.new 8 1]
          AIFormationType.SingleFile 1) = some s1
      ∧ UpdateFormationOffsetsForAllFollowers insertionStdSort libmQ s1 = some s2
      ∧ s2.formation = s1.formation :=
  have h := C7_recompute_twice insertionStdSort libmQ
    (stateQ [FormationFollower.new 7 2, FormationFollower.new 8 1] AIFormationType.SingleFile 1)
    (by decide) (fun _ _ => rfl)
  h.imp (fun _ h1 => h1.imp (fun _ h2 =>
    ⟨h2.1, h2.2.1, h2.2.2.2.2.2 (by simp [stateQ, FormationFollower.new])⟩))

/-- Witness for C8: SingleFile, three members at positions 1, 2, 3; follower 4 is added at
position 0 and removed again. -/
theorem C8_add_then_remove_witness :
    ∃ s s1 s2, UpdateFormationOffsetsForAllFollowers insertionStdSort libmQ
        (stateQ [FormationFollower.new 1 1, FormationFollower.new 2 2, FormationFollower.new 3 3]
          AIFormationType.SingleFile 1) = some s
      ∧ AddFollower insertionStdSort libmQ s 4 0 = some s1
      ∧ RemoveFollower insertionStdSort libmQ s1 4 = some s2
      ∧ s2.formation._followerData.map (fun a => a.FormationOffsets)
          = s.formation._followerData.map (fun a => a.FormationOffsets) :=
  have h := C8_add_then_remove insertionStdSort libmQ
    (stateQ [FormationFollower.new 1 1, FormationFollower.new 2 2, FormationFollower.new 3 3]
      AIFormationType.SingleFile 1) 4 0
    (by decide) (fun _ _ => rfl) (by simp [stateQ, FormationFollower.new]) rfl
  h.imp (fun _ h1 => h1.imp (fun _ h2 => h2.imp (fun _ h3 =>
    ⟨h3.1, h3.2.1, h3.2.2.1, h3.2.2.2.1⟩)))

/-- Witness for C9: member 1 only; removing the unknown guid 7 changes nothing. -/
theorem C9_remove_non_member_witness :
    RemoveFollower insertionStdSort libmQ
      (stateQ [FormationFollower.new 1 0] AIFormationType.SingleFile 1) 7
      = some (stateQ [FormationFollower.new 1 0] AIFormationType.SingleFile 1) :=
  C9_remove_non_member insertionStdSort libmQ
    (stateQ [FormationFollower.new 1 0] AIFormationType.SingleFile 1) 7
    (by simp [stateQ, FormationFollower.new])

/-! ## Construction, unimplemented topologies, speed selection -/

/-- C14: a formation constructed for a non-player owner whose spawn id has stored settings
adopts exactly the stored topology and radius; for a player owner, and for a non-player owner
without stored settings, the topology is GridBehindLeader and the radius is 3, so these two
kinds of formation have the same topology and radius. -/
theorem C14_construction_defaults {F : Type} [LinearOrderedField F] (mgr : AIFormationMgr F)
    (owner : Owner) :
    (∀ settings, owner.IsPlayer = false →
        mgr.GetAIFormationSettingsForSpawnId owner.spawnId = some settings →
        (AIFormation.new mgr owner)._formationType = settings.FormationType
          ∧ (AIFormation.new mgr owner)._formationRadius = settings.FormationRadius)
    ∧ ((owner.IsPlayer = true ∨ mgr.GetAIFormationSettingsForSpawnId owner.spawnId = none) →
        (AIFormation.new mgr owner)._formationType = AIFormationType.GridBehindLeader
          ∧ (AIFormation.new mgr owner)._formationRadius = 3) := by
  cases owner with
  | mk guid typeId spawnId =>
    cases typeId with
    | TYPEID_UNIT =>
      refine ⟨?_, ?_⟩
      · intro settings _ hs
        simp [AIFormation.new, Owner.IsCreature, hs]
      · intro h
        rcases h with h | h
        · simp [Owner.IsPlayer] at h
        · simp [AIFormation.new, Owner.IsCreature, h, DEFAULT_FORMATION_FOLLOWER_DISTANCE]
    | TYPEID_PLAYER =>
      refine ⟨?_, ?_⟩
      · intro settings hp
        simp [Owner.IsPlayer] at hp
      · intro _
        simp [AIFormation.new, Owner.IsCreature, DEFAULT_FORMATION_FOLLOWER_DISTANCE]

section ConstructionClaims

variable {F : Type} [LinearOrderedField F] [FloorRing F]

/-- C16: for the topologies LikeGeese, Marching and GridBehindLeader, and for every topology
tag outside the nine enumerated values, `CalculateFormationOffsets` returns the zero offset,
for every index, follower list and radius, and makes no `frand` call. -/
theorem C16_unimplemented_zero_offset (m : Libm F) (f : AIFormation F) (rng i : Nat)
    (type : AIFormationType)
    (h : type = AIFormationType.LikeGeese ∨ type = AIFormationType.Marching
      ∨ type = AIFormationType.GridBehindLeader ∨ 9 ≤ type) :
    CalculateFormationOffsets m { f with _formationType := type } rng i
      = (⟨0, 0, 0, 0⟩, rng) := by
  rcases h with h | h | h | h
  · subst h; rfl
  · subst h; rfl
  · subst h; rfl
  · obtain ⟨k, rfl⟩ := Nat.exists_eq_add_of_le h
    have e : 9 + k = k + 9 := Nat.add_comm 9 k
    rw [e]
    rfl

end ConstructionClaims

/-- C19: `SelectSpeedType` follows the priority flying, swimming, walking, running backward,
running, for every flag word: with FLYING set the result is fly-backward when BACKWARD is set
and fly otherwise; else with SWIMMING set it is swim-backward or swim by the same rule; else
with WALKING set it is walk (also when BACKWARD is set); else BACKWARD gives run-backward; with
none of the four flags set the result is run. -/
theorem C19_speed_type_priority (fl : MovementFlags) (moveFlags : Nat) :
    (hasFlag moveFlags fl.MOVEMENTFLAG_FLYING = true →
        SelectSpeedType fl moveFlags
          = if hasFlag moveFlags fl.MOVEMENTFLAG_BACKWARD then UnitMoveType.MOVE_FLIGHT_BACK
            else UnitMoveType.MOVE_FLIGHT)
    ∧ (hasFlag moveFlags fl.MOVEMENTFLAG_FLYING = false →
        hasFlag moveFlags fl.MOVEMENTFLAG_SWIMMING = true →
        SelectSpeedType fl moveFlags
          = if hasFlag moveFlags fl.MOVEMENTFLAG_BACKWARD then UnitMoveType.MOVE_SWIM_BACK
            else UnitMoveType.MOVE_SWIM)
    ∧ (hasFlag moveFlags fl.MOVEMENTFLAG_FLYING = false →
        hasFlag moveFlags fl.MOVEMENTFLAG_SWIMMING = false →
        hasFlag moveFlags fl.MOVEMENTFLAG_WALKING = true →
        SelectSpeedType fl moveFlags = UnitMoveType.MOVE_WALK)
    ∧ (hasFlag moveFlags fl.MOVEMENTFLAG_FLYING = false →
        hasFlag moveFlags fl.MOVEMENTFLAG_SWIMMING = false →
        hasFlag moveFlags fl.MOVEMENTFLAG_WALKING = false →
        hasFlag moveFlags fl.MOVEMENTFLAG_BACKWARD = true →
        SelectSpeedType fl moveFlags = UnitMoveType.MOVE_RUN_BACK)
    ∧ (hasFlag moveFlags fl.MOVEMENTFLAG_FLYING = false →
        hasFlag moveFlags fl.MOVEMENTFLAG_SWIMMING = false →
        hasFlag moveFlags fl.MOVEMENTFLAG_WALKING = false →
        hasFlag moveFlags fl.MOVEMENTFLAG_BACKWARD = false →
        SelectSpeedType fl moveFlags = UnitMoveType.MOVE_RUN) := by
  refine ⟨?_, ?_, ?_, ?_, ?_⟩
  · intro h; simp [SelectSpeedType, h]
  · intro h1 h2; simp [SelectSpeedType, h1, h2]
  · intro h1 h2 h3; simp [SelectSpeedType, h1, h2, h3]
  · intro h1 h2 h3 h4; simp [SelectSpeedType, h1, h2, h3, h4]
  · intro h1 h2 h3 h4; simp [SelectSpeedType, h1, h2, h3, h4]

/-! ## The follower movement controller -/

section ControllerClaims

variable {F : Type} [LinearOrderedField F]

/-- The catch-up multiplier, case by case: NaN exactly when distance and travel distance are
both zero; otherwise a number that is at most 1.5, or the negative infinity. -/
theorem velocityMod_cases (distance travelDist : F) :
    (distance = 0 ∧ travelDist = 0 ∧ velocityMod distance travelDist = FloatValue.nan)
    ∨ (¬ (distance = 0 ∧ travelDist = 0)
        ∧ ((∃ x : F, velocityMod distance travelDist = FloatValue.finite x ∧ x ≤ 3 / 2)
          ∨ velocityMod distance travelDist = FloatValue.infinite true)) := by
  unfold velocityMod stdMin floatDiv
  by_cases ht : travelDist = 0
  · by_cases hd : distance = 0
    · left
      simp [ht, hd, FloatValue.lt]
    · right
      refine ⟨fun h => hd h.1, ?_⟩
      by_cases hneg : distance < 0
      · right
        simp [ht, hd, hneg, FloatValue.lt]
      · left
        exact ⟨3 / 2, by simp [ht, hd, hneg, FloatValue.lt], le_refl _⟩
  · right
    refine ⟨fun h => ht h.2, Or.inl ?_⟩
    by_cases hlt : (3 / 2 : F) < distance / travelDist
    · exact ⟨3 / 2, by simp [ht, hlt, FloatValue.lt], le_refl _⟩
    · exact ⟨distance / travelDist, by simp [ht, hlt, FloatValue.lt], not_lt.mp hlt⟩

/-- C15: `DoUpdate` returns false exactly when the follower or the leader reference does not
resolve; then it issues no movement command and leaves the controller (both countdowns
included) and the follower as they were. In every other situation it returns true. -/
theorem C15_teardown_iff_unresolved (env : MotionEnv F) (gen : FormationMovementGenerator F)
    (owner : Option (Follower F)) (target : Option (Leader F)) (diff : Nat) :
    ((DoUpdate env gen owner target diff).result = false ↔ (owner = none ∨ target = none))
    ∧ ((DoUpdate env gen owner target diff).result = false →
        (DoUpdate env gen owner target diff).commands = []
        ∧ (DoUpdate env gen owner target diff).generator = gen
        ∧ (DoUpdate env gen owner target diff).owner = owner) := by
  cases owner with
  | none => simp [DoUpdate]
  | some o =>
    cases target with
    | none => simp [DoUpdate]
    | some t =>
      have hr : (DoUpdate env gen (some o) (some t) diff).result = true := by
        simp only [DoUpdate]
        split_ifs <;> rfl
      simp [hr]

end ControllerClaims

section TickClaims

variable {F : Type} [LinearOrderedField F]

/-- C17: for a tick with resolvable leader and follower, a movement is launched exactly when
the follower is able to move and either (a) the leader is a creature with a finished path whose
position differs from the last leader position recorded, or (b) the leader is not a stationary
creature and the primary countdown minus the elapsed time is at most 0. After a launch under
(a), a further tick with the same stationary leader launches nothing, whatever the follower
and the elapsed time are, and issues no command at all when the follower is able to move. -/
theorem C17_launch_iff (env : MotionEnv F) (gen : FormationMovementGenerator F)
    (o : Follower F) (t : Leader F) (diff : Nat) :
    ((DoUpdate env gen (some o) (some t) diff).launches ↔
      (o.notMove = false ∧ o.movementPreventedByCasting = false)
        ∧ ((t.IsCreature = true ∧ t.splineFinalized = true
              ∧ gen._lastLeaderPosition ≠ t.position)
          ∨ (¬ (t.IsCreature = true ∧ t.splineFinalized = true)
              ∧ gen._movementTimer - (diff : Int) ≤ 0)))
    ∧ (o.notMove = false → o.movementPreventedByCasting = false →
        t.IsCreature = true → t.splineFinalized = true →
        gen._lastLeaderPosition ≠ t.position →
        ∀ (o' : Follower F) (diff' : Nat),
          ¬ (DoUpdate env (DoUpdate env gen (some o) (some t) diff).generator
              (some o') (some t) diff').launches
          ∧ (o'.notMove = false → o'.movementPreventedByCasting = false →
              (DoUpdate env (DoUpdate env gen (some o) (some t) diff).generator
                (some o') (some t) diff').commands = [])) := by
  constructor
  · simp only [DoUpdate, TickResult.launches]
    by_cases h0 : o.roamingMove = true <;> by_cases h0' : o.splineFinalized = true <;>
    by_cases h1 : o.notMove = true <;> by_cases h2 : o.movementPreventedByCasting = true <;>
    by_cases h3 : t.IsCreature = true <;> by_cases h4 : t.splineFinalized = true <;>
    by_cases h5 : gen._lastLeaderPosition = t.position <;>
    by_cases h6 : gen._movementTimer - (diff : Int) ≤ 0 <;>
    simp [h0, h0', h1, h2, h3, h4, h5, h6]
  · intro h1 h2 h3 h4 h5 o' diff'
    have hg : (DoUpdate env gen (some o) (some t) diff).generator._lastLeaderPosition
        = t.position := by
      by_cases h0 : o.roamingMove = true <;> by_cases h0' : o.splineFinalized = true <;>
      simp [DoUpdate, h0, h0', h1, h2, h3, h4, h5, LaunchMovement]
    generalize (DoUpdate env gen (some o) (some t) diff).generator = g1 at hg
    constructor
    · simp only [DoUpdate, TickResult.launches]
      by_cases h0 : o'.roamingMove = true <;> by_cases h0' : o'.splineFinalized = true <;>
      by_cases h6 : o'.notMove = true <;> by_cases h7 : o'.movementPreventedByCasting = true <;>
      simp [h0, h0', h6, h7, h3, h4, hg]
    · intro h6 h7
      by_cases h0 : o'.roamingMove = true <;> by_cases h0' : o'.splineFinalized = true <;>
      simp [DoUpdate, h0, h0', h6, h7, h3, h4, hg]

/-- C18: after a tick with resolvable leader and follower the primary countdown is 0 when the
follower cannot move (then the only command is a stop), and 0 when the leader is a stationary
creature; otherwise it is the leader's `GetNextFormationMovementTime` value when the old value
minus the elapsed time is at most 0, and the old value minus the elapsed time when that
difference is positive. -/
theorem C18_countdown_after_tick (env : MotionEnv F) (gen : FormationMovementGenerator F)
    (o : Follower F) (t : Leader F) (diff : Nat) :
    (DoUpdate env gen (some o) (some t) diff).generator._movementTimer
      = (if o.notMove = true ∨ o.movementPreventedByCasting = true then 0
        else if t.IsCreature = true ∧ t.splineFinalized = true then 0
        else if gen._movementTimer - (diff : Int) ≤ 0 then t.nextFormationMovementTime
        else gen._movementTimer - (diff : Int))
    ∧ ((o.notMove = true ∨ o.movementPreventedByCasting = true) →
        (DoUpdate env gen (some o) (some t) diff).commands = [MoveCommand.stopMoving]) := by
  constructor
  · simp only [DoUpdate]
    by_cases h0 : o.roamingMove = true <;> by_cases h0' : o.splineFinalized = true <;>
    by_cases h1 : o.notMove = true <;> by_cases h2 : o.movementPreventedByCasting = true <;>
    by_cases h3 : t.IsCreature = true <;> by_cases h4 : t.splineFinalized = true <;>
    by_cases h5 : gen._lastLeaderPosition = t.position <;>
    by_cases h6 : gen._movementTimer - (diff : Int) ≤ 0 <;>
    simp [h0, h0', h1, h2, h3, h4, h5, h6, LaunchMovement]
  · intro h
    by_cases h0 : o.roamingMove = true <;> by_cases h0' : o.splineFinalized = true <;>
    rcases h with h | h <;> simp [DoUpdate, h0, h0', h]

end TickClaims

/-! ## The movement timer of the formation -/

/-- An integer within the `int32` range is stored unchanged. -/
theorem toInt32_of_range (x : Int) (h1 : -2 ^ 31 ≤ x) (h2 : x < 2 ^ 31) : toInt32 x = x := by
  unfold toInt32
  omega

/-- C13 (amended): for every `int32` timer value `t` and `uint32` elapsed time `diff` whose
difference `t - diff` is not below `-2^31`, the movement timer after `Update(diff)` equals
`t - diff` when `t - diff > 0` and `t - diff + interval` when `t - diff <= 0` (the interval is
added once, without clamping), where the interval is 400 for a player owner and 1200
otherwise; `GetNextFormationMovementTime` returns exactly this value. -/
theorem C13_update_timer {F : Type} [LinearOrderedField F] (mgr : AIFormationMgr F)
    (owner : Owner) (t : Int) (diff : Nat)
    (ht : -2 ^ 31 ≤ t ∧ t < 2 ^ 31) (hd : diff < 2 ^ 32) (hno : -2 ^ 31 ≤ t - (diff : Int)) :
    (AIFormation.GetNextFormationMovementTime
        (AIFormation.Update { AIFormation.new mgr owner with _formationMovementTimer := t } diff))
      = (if 0 < t - (diff : Int) then t - (diff : Int)
        else t - (diff : Int) + (if owner.IsPlayer then 400 else 1200))
    ∧ (AIFormation.new mgr owner)._formationMovementInterval
        = (if owner.IsPlayer then 400 else 1200) := by
  have hint : (AIFormation.new mgr owner)._formationMovementInterval
      = (if owner.IsPlayer then 400 else 1200) := by
    simp only [AIFormation.new, PLAYER_FORMATION_MOVEMENT_INTERVAL,
      CREATURE_FORMATION_MOVEMENT_INTERVAL]
    split
    · split <;> rfl
    · rfl
  refine ⟨?_, hint⟩
  have hmod : diff % 2 ^ 32 = diff := Nat.mod_eq_of_lt hd
  have hsub : toInt32 (t - (diff : Int)) = t - (diff : Int) :=
    toInt32_of_range _ hno (by omega)
  simp only [AIFormation.GetNextFormationMovementTime, AIFormation.Update, hmod, hsub, hint]
  by_cases hpos : 0 < t - (diff : Int)
  · have : ¬ (t - (diff : Int) ≤ 0) := by omega
    simp [this, hpos]
  · have hle : t - (diff : Int) ≤ 0 := by omega
    simp only [hle, if_true, hpos, if_false]
    by_cases hp : owner.IsPlayer = true
    · simp only [hp, if_true]
      exact toInt32_of_range _ (by push_cast; omega) (by push_cast; omega)
    · simp only [hp]
      exact toInt32_of_range _ (by push_cast; omega) (by push_cast; omega)

/-- Witness for C13: a creature-owned formation with timer 100 and 300 ms elapsed. -/
theorem C13_update_timer_witness :
    (AIFormation.GetNextFormationMovementTime
        (AIFormation.Update
          { AIFormation.new noSettingsQ creatureOwner with _formationMovementTimer := 100 } 300))
      = (if 0 < (100 : Int) - (300 : Nat) then (100 : Int) - (300 : Nat)
        else (100 : Int) - (300 : Nat) + (if creatureOwner.IsPlayer then 400 else 1200)) :=
  (C13_update_timer noSettingsQ creatureOwner 100 300 (by decide) (by decide) (by decide)).1

/-- C13 refuted as stated: with timer 0 and an elapsed time of 3000000000 ms (a `uint32`
value) the `int32` subtraction wraps; the timer after `Update` is 1294967296, not
`0 - 3000000000 + 1200`. -/
theorem C13_timer_wraps :
    AIFormation.GetNextFormationMovementTime
      (AIFormation.Update
        { AIFormation.new noSettingsQ creatureOwner with _formationMovementTimer := 0 }
        3000000000) = 1294967296 := by
  decide

/-! ## Inverting the offsets -/

/-- Inverting a record keeps its identity. -/
theorem map_key_invert {F : Type} [LinearOrderedField F] (l : List (FormationFollower F)) :
    (l.map FormationFollower.invert).map FormationFollower.key = l.map FormationFollower.key := by
  rw [List.map_map]
  apply List.map_congr_left
  intro a _
  rfl

section InvertClaims

variable {F : Type} [LinearOrderedField F] [FloorRing F]

/-- Outside Random, recomputing any arrangement of the members of a recomputed formation,
whatever offsets they carry, gives slot by slot the offsets and FormationPositions of that
formation, with the same members; with pairwise distinct FormationPositions it gives that
formation. -/
theorem recomputed_same_members (srt : StdSort F) (m : Libm F) (f₀ : AIFormation F)
    (rng₀ rng : Nat) (l : List (FormationFollower F))
    (hty : f₀._formationType ≠ AIFormationType.Random)
    (hp : (l.map FormationFollower.key).Perm
      ((recomputed srt m f₀ rng₀)._followerData.map FormationFollower.key)) :
    (recomputed srt m { recomputed srt m f₀ rng₀ with _followerData := l } rng)._followerData.map
        (fun a => a.FormationOffsets)
      = (recomputed srt m f₀ rng₀)._followerData.map (fun a => a.FormationOffsets)
    ∧ (recomputed srt m { recomputed srt m f₀ rng₀ with _followerData := l } rng)._followerData.map
        (fun a => a.FormationPosition)
      = (recomputed srt m f₀ rng₀)._followerData.map (fun a => a.FormationPosition)
    ∧ ((recomputed srt m { recomputed srt m f₀ rng₀ with _followerData := l }
          rng)._followerData.map FormationFollower.key).Perm
        ((recomputed srt m f₀ rng₀)._followerData.map FormationFollower.key)
    ∧ ((f₀._followerData.map (fun a => a.FormationPosition)).Nodup →
        recomputed srt m { recomputed srt m f₀ rng₀ with _followerData := l } rng
          = recomputed srt m f₀ rng₀) := by
  have hlen : l.length = f₀._followerData.length := by
    have := hp.length_eq
    simpa [recomputed_length] using this
  have hl : ({ recomputed srt m f₀ rng₀ with _followerData := l }
      : AIFormation F)._followerData.length = f₀._followerData.length := hlen
  refine ⟨?_, ?_, ?_, ?_⟩
  · rw [recomputed_offsets srt m ({ recomputed srt m f₀ rng₀ with _followerData := l }) rng hty,
      recomputed_offsets srt m f₀ rng₀ hty, hl]
    apply List.map_congr_left
    intro j _
    rw [calculate_congr m ({ recomputed srt m f₀ rng₀ with _followerData := l }) f₀ 0 j
      rfl rfl hl]
  · have h := sort_positions_eq srt l (recomputed srt m f₀ rng₀)._followerData hp
      (recomputed_sorted srt m f₀ rng₀)
    have hk := congrArg (List.map Prod.snd)
      (recomputed_keys srt m ({ recomputed srt m f₀ rng₀ with _followerData := l }) rng)
    simp only [List.map_map] at hk
    simpa [FormationFollower.key, Function.comp_def] using
      hk.trans (by simpa [Function.comp_def] using h)
  · exact (recomputed_perm srt m _ _).trans hp
  · intro hn
    have hnS : ((recomputed srt m f₀ rng₀)._followerData.map
        (fun a => a.FormationPosition)).Nodup := by
      have hp' := (recomputed_perm srt m f₀ rng₀).map Prod.snd
      simp only [List.map_map, FormationFollower.key, Function.comp_def] at hp'
      exact hp'.nodup_iff.mpr hn
    have hnS' : ((srt.sort (recomputed srt m f₀ rng₀)._followerData).map
        (fun a => a.FormationPosition)).Nodup :=
      (((srt.perm _).map _).nodup_iff).mpr hnS
    have hk : (srt.sort l).map FormationFollower.key
        = (srt.sort (recomputed srt m f₀ rng₀)._followerData).map FormationFollower.key :=
      sort_keys_eq srt l _ (hp.trans ((srt.perm _).map _).symm) (srt.sorted _) hnS'
    rw [recomputed_congr srt m (recomputed srt m f₀ rng₀) l
      (recomputed srt m f₀ rng₀)._followerData rng hk]
    exact recomputed_recomputed srt m f₀ rng₀ rng hty hn

/-- C11 (amended): for a non-Random formation whose members all resolve, take the state `s` a
recomputation leaves. `InvertFormationOffsets` on `s` completes and leaves, slot by slot, the
offsets and FormationPositions of `s`, with the same members; when the members'
FormationPositions are pairwise distinct it leaves the formation of `s` exactly, every member
with the offset it had before the call. -/
theorem C11_invert_is_overwritten (srt : StdSort F) (m : Libm F) (s₀ : State F)
    (hty : s₀.formation._formationType ≠ AIFormationType.Random)
    (hres : ∀ fd ∈ s₀.formation._followerData, (s₀.units fd.GUID).isSome) :
    ∃ s s2, UpdateFormationOffsetsForAllFollowers srt m s₀ = some s
      ∧ InvertFormationOffsets srt m s = some s2
      ∧ s2.formation._followerData.map (fun a => a.FormationOffsets)
          = s.formation._followerData.map (fun a => a.FormationOffsets)
      ∧ s2.formation._followerData.map (fun a => a.FormationPosition)
          = s.formation._followerData.map (fun a => a.FormationPosition)
      ∧ (s2.formation._followerData.map FormationFollower.key).Perm
          (s.formation._followerData.map FormationFollower.key)
      ∧ ((s.formation._followerData.map (fun a => a.FormationPosition)).Nodup →
          s2.formation = s.formation) := by
  obtain ⟨s, e, hfs, hus, -, -⟩ := update_some srt m s₀ hres
  have hresS : ∀ fd ∈ s.formation._followerData, (s.units fd.GUID).isSome := by
    rw [hfs]
    apply recomputed_forall_guid srt m s₀.formation s₀.rng (fun g => (s.units g).isSome = true)
    intro fd hfd
    rw [hus]; exact hres fd hfd
  have hresI : ∀ fd ∈ s.formation._followerData.map FormationFollower.invert,
      (s.units fd.GUID).isSome := by
    intro fd hfd
    obtain ⟨a, ha, rfl⟩ := List.mem_map.mp hfd
    exact hresS a ha
  obtain ⟨s2, e2, hf2, -, -, -⟩ := update_some srt m
    { s with
      formation :=
        { s.formation with
          _followerData := s.formation._followerData.map FormationFollower.invert } } hresI
  have hp : ((s.formation._followerData.map FormationFollower.invert).map
      FormationFollower.key).Perm
      ((recomputed srt m s₀.formation s₀.rng)._followerData.map FormationFollower.key) := by
    rw [map_key_invert, hfs]
  obtain ⟨c1, c2, c3, c4⟩ := recomputed_same_members srt m s₀.formation s₀.rng s.rng
    (s.formation._followerData.map FormationFollower.invert) hty hp
  have hf2' : s2.formation = recomputed srt m
      { recomputed srt m s₀.formation s₀.rng with
        _followerData := s.formation._followerData.map FormationFollower.invert } s.rng := by
    rw [hf2]
    simp only [hfs]
  refine ⟨s, s2, e, e2, ?_, ?_, ?_, ?_⟩
  · rw [hf2', c1, hfs]
  · rw [hf2', c2, hfs]
  · rw [hf2']; exact c3.trans (by rw [hfs])
  · intro hn
    have hn₀ : (s₀.formation._followerData.map (fun a => a.FormationPosition)).Nodup := by
      have hp' := (recomputed_perm srt m s₀.formation s₀.rng).map Prod.snd
      rw [← hfs] at hp'
      simp only [List.map_map, FormationFollower.key, Function.comp_def] at hp'
      exact hp'.nodup_iff.mp hn
    rw [hf2', c4 hn₀, hfs]

end InvertClaims

/-- C11 refuted as stated: SingleFile with radius 1, seventeen members at FormationPosition 0,
standing in the order 9, 17, 16, ..., 10, 1, 8, ..., 2 after a recomputation with the
`std::sort` of libstdc++. `InvertFormationOffsets` leaves them in the order
10, 2, 3, ..., 8, 1, 9, 11, ..., 17: member 9, for one, went from the offset `(-1, 0)` to
`(-10, 0)`. Each member is listed with the X of its offset. -/
theorem C11_invert_reorders :
    (UpdateFormationOffsetsForAllFollowers libstdcxxStdSort libmQ
        (stateQ (tiedFollowersQ 17) AIFormationType.SingleFile 1)).map
      (fun s => s.formation._followerData.map (fun a => (a.GUID, a.FormationOffsets.m_positionX)))
      = some [(9, -1), (17, -2), (16, -3), (15, -4), (14, -5), (13, -6), (12, -7),
          (11, -8), (10, -9), (1, -10), (8, -11), (7, -12), (6, -13), (5, -14),
          (4, -15), (3, -16), (2, -17)]
    ∧ ((UpdateFormationOffsetsForAllFollowers libstdcxxStdSort libmQ
        (stateQ (tiedFollowersQ 17) AIFormationType.SingleFile 1)).bind
        (InvertFormationOffsets libstdcxxStdSort libmQ)).map
      (fun s => s.formation._followerData.map (fun a => (a.GUID, a.FormationOffsets.m_positionX)))
      = some [(10, -1), (2, -2), (3, -3), (4, -4), (5, -5), (6, -6), (7, -7), (8, -8),
          (1, -9), (9, -10), (11, -11), (12, -12), (13, -13), (14, -14), (15, -15),
          (16, -16), (17, -17)] := by
  decide!

/-- Witness for C11: SingleFile, members 7 and 8 at the distinct positions 2 and 1. -/
theorem C11_invert_is_overwritten_witness :
    ∃ s s2, UpdateFormationOffsetsForAllFollowers insertionStdSort libmQ
        (stateQ [FormationFollower.new 7 2, FormationFollower.new 8 1]
          AIFormationType.SingleFile 1) = some s
      ∧ InvertFormationOffsets insertionStdSort libmQ s = some s2
      ∧ s2.formation._followerData.map (fun a => a.FormationOffsets)
          = s.formation._followerData.map (fun a => a.FormationOffsets) :=
  have h := C11_invert_is_overwritten insertionStdSort libmQ
    (stateQ [FormationFollower.new 7 2, FormationFollower.new 8 1] AIFormationType.SingleFile 1)
    (by decide) (fun _ _ => rfl)
  h.imp (fun _ h1 => h1.imp (fun _ h2 => ⟨h2.1, h2.2.1, h2.2.2.1⟩))

/-! ## Division safety of the geometry -/

/-- With at least one follower the divisor of the fanned-out shapes is not zero. -/
theorem fanDivider_ne_zero (n : Nat) (h : 1 ≤ n) : fanDivider n ≠ 0 := by
  unfold fanDivider
  split
  · omega
  · have := Nat.le_max_left 3 (n - 1)
    omega

section SafetyClaims

variable {F : Type} [LinearOrderedField F] [FloorRing F]

/-- A completed recomputation records its entry and then one evaluation of the geometry per
slot, each with an index below the follower count. -/
theorem update_trace_safe (srt : StdSort F) (m : Libm F) (s s' : State F)
    (h : UpdateFormationOffsetsForAllFollowers srt m s = some s') :
    ∃ evs, s'.trace = s.trace ++ evs ∧ ∀ e ∈ evs, Event.Safe e := by
  have hres := update_resolves srt m s s' h
  obtain ⟨s1, e1, -, -, ht, -⟩ := update_some srt m s hres
  have hs : s1 = s' := Option.some.inj (e1.symm.trans h)
  subst hs
  refine ⟨_, ht, ?_⟩
  intro e he
  rcases List.mem_cons.mp he with rfl | he
  · trivial
  · obtain ⟨j, hj, rfl⟩ := List.mem_map.mp he
    have hlt : j < s.formation._followerData.length := by
      have := List.mem_range'_1.mp hj
      omega
    exact ⟨by omega, hlt, fanDivider_ne_zero _ (by omega)⟩

/-- C20: every evaluation of `CalculateFormationOffsets` recorded by a completed AddFollower,
RemoveFollower, SetFormationType, SetFormationFollowerDistance or InvertFormationOffsets saw a
follower count of at least 1 and an index below that count, so the CircleAroundLeader divisor
(the count) and the fanned-out divisor are not zero; on an empty formation SetFormationType
completes and records the entry into the recomputation only, with no evaluation; when every
member resolves it completes with one evaluation per slot. -/
theorem C20_division_safety (srt : StdSort F) (m : Libm F) (s : State F) :
    (∀ follower formationPosition s', AddFollower srt m s follower formationPosition = some s' →
        ∃ evs, s'.trace = s.trace ++ evs ∧ ∀ e ∈ evs, Event.Safe e)
    ∧ (∀ follower s', RemoveFollower srt m s follower = some s' →
        ∃ evs, s'.trace = s.trace ++ evs ∧ ∀ e ∈ evs, Event.Safe e)
    ∧ (∀ type s', SetFormationType srt m s type = some s' →
        ∃ evs, s'.trace = s.trace ++ evs ∧ ∀ e ∈ evs, Event.Safe e)
    ∧ (∀ distance s', SetFormationFollowerDistance srt m s distance = some s' →
        ∃ evs, s'.trace = s.trace ++ evs ∧ ∀ e ∈ evs, Event.Safe e)
    ∧ (∀ s', InvertFormationOffsets srt m s = some s' →
        ∃ evs, s'.trace = s.trace ++ evs ∧ ∀ e ∈ evs, Event.Safe e)
    ∧ (s.formation._followerData = [] → ∀ type,
        ∃ s', SetFormationType srt m s type = some s'
          ∧ s'.trace = s.trace ++ [Event.recompute])
    ∧ ((∀ fd ∈ s.formation._followerData, (s.units fd.GUID).isSome) → ∀ type,
        ∃ s', SetFormationType srt m s type = some s'
          ∧ s'.trace = s.trace ++ Event.recompute ::
              (List.range' 0 s.formation._followerData.length).map
                (fun j => Event.calculate j s.formation._followerData.length)) := by
  refine ⟨?_, ?_, ?_, ?_, ?_, ?_, ?_⟩
  · intro follower formationPosition s' h
    simp only [AddFollower] at h
    split at h
    · exact absurd h (by simp)
    · rename_i s2 h2
      obtain ⟨evs, hevs, hsafe⟩ := update_trace_safe srt m _ s2 h2
      split at h
      · rename_i last u _ _
        have hs' := Option.some.inj h
        refine ⟨evs ++ [Event.moveFormation follower s2.formation._owner last.FormationOffsets],
          ?_, ?_⟩
        · rw [← hs']
          simp only [hevs, List.append_assoc]
        · intro e he
          rcases List.mem_append.mp he with he | he
          · exact hsafe e he
          · rw [List.mem_singleton.mp he]; trivial
      · exact absurd h (by simp)
  · intro follower s' h
    simp only [RemoveFollower] at h
    split at h
    · exact ⟨[], by rw [← Option.some.inj h]; simp, by simp⟩
    · split at h
      · exact ⟨[], by rw [← Option.some.inj h]; simp, by simp⟩
      · have hsafe := update_trace_safe srt m _ s' h
        exact hsafe
  · intro type s' h
    have hsafe := update_trace_safe srt m _ s' h
    exact hsafe
  · intro distance s' h
    have hsafe := update_trace_safe srt m _ s' h
    exact hsafe
  · intro s' h
    have hsafe := update_trace_safe srt m _ s' h
    exact hsafe
  · intro hnil type
    obtain ⟨s', e, -, -, ht, -⟩ := update_some srt m
      { s with formation := { s.formation with _formationType := type } }
      (by intro fd hfd; rw [hnil] at hfd; simp at hfd)
    refine ⟨s', e, ?_⟩
    rw [ht]
    simp [hnil]
  · intro hres type
    obtain ⟨s', e, -, -, ht, -⟩ := update_some srt m
      { s with formation := { s.formation with _formationType := type } } hres
    exact ⟨s', e, ht⟩

end SafetyClaims

/-- Witness for C16: the tag 200, outside the enumeration, with three followers. -/
theorem C16_unimplemented_zero_offset_witness :
    CalculateFormationOffsets libmQ
      ⟨1, [FormationFollower.new 1 0, FormationFollower.new 2 0, FormationFollower.new 3 0],
        200, 5, 0, 1200⟩ 0 2 = (⟨0, 0, 0, 0⟩, 0) :=
  C16_unimplemented_zero_offset libmQ
    ⟨1, [FormationFollower.new 1 0, FormationFollower.new 2 0, FormationFollower.new 3 0],
      0, 5, 0, 1200⟩ 0 2 200 (by decide)

/-! ## The range of the movement timer -/

/-- The interval of a constructed formation is 400 or 1200. -/
theorem new_interval {F : Type} [LinearOrderedField F] (mgr : AIFormationMgr F) (owner : Owner) :
    (AIFormation.new mgr owner)._formationMovementInterval
      = (if owner.IsPlayer then 400 else 1200) := by
  simp only [AIFormation.new, PLAYER_FORMATION_MOVEMENT_INTERVAL,
    CREATURE_FORMATION_MOVEMENT_INTERVAL]
  split
  · split <;> rfl
  · rfl

/-- `Update` changes nothing but the timer. -/
theorem update_interval {F : Type} [LinearOrderedField F] (f : AIFormation F) (diff : Nat) :
    (AIFormation.Update f diff)._formationMovementInterval = f._formationMovementInterval := by
  unfold AIFormation.Update
  simp only
  split <;> rfl

/-- One `Update` with an elapsed time of at most the interval keeps the timer within
`[0, interval]`, for an interval that fits a `uint16`. -/
theorem update_keeps_range {F : Type} [LinearOrderedField F] (f : AIFormation F) (diff : Nat)
    (hI : f._formationMovementInterval < 2 ^ 16)
    (h0 : 0 ≤ f._formationMovementTimer)
    (h1 : f._formationMovementTimer ≤ (f._formationMovementInterval : Int))
    (hd : diff ≤ f._formationMovementInterval) :
    0 ≤ (AIFormation.Update f diff)._formationMovementTimer
    ∧ (AIFormation.Update f diff)._formationMovementTimer
        ≤ (f._formationMovementInterval : Int) := by
  have hmod : diff % 2 ^ 32 = diff := Nat.mod_eq_of_lt (by omega)
  have hsub : toInt32 (f._formationMovementTimer - (diff : Int))
      = f._formationMovementTimer - (diff : Int) :=
    toInt32_of_range _ (by omega) (by omega)
  simp only [AIFormation.Update, hmod, hsub]
  by_cases hle : f._formationMovementTimer - (diff : Int) ≤ 0
  · simp only [hle, if_true]
    rw [toInt32_of_range _ (by omega) (by omega)]
    constructor <;> omega
  · simp only [hle, if_false]
    constructor <;> omega

/-- Any sequence of `Update` calls with elapsed times of at most the interval keeps the timer
within `[0, interval]`. -/
theorem updates_keep_range {F : Type} [LinearOrderedField F] :
    ∀ (diffs : List Nat) (f : AIFormation F),
      f._formationMovementInterval < 2 ^ 16 →
      0 ≤ f._formationMovementTimer →
      f._formationMovementTimer ≤ (f._formationMovementInterval : Int) →
      (∀ d ∈ diffs, d ≤ f._formationMovementInterval) →
      0 ≤ (diffs.foldl AIFormation.Update f)._formationMovementTimer
      ∧ (diffs.foldl AIFormation.Update f)._formationMovementTimer
          ≤ (f._formationMovementInterval : Int)
  | [], _, _, h0, h1, _ => ⟨h0, h1⟩
  | d :: rest, f, hI, h0, h1, hd => by
    have hstep := update_keeps_range f d hI h0 h1 (hd d (List.mem_cons_self _ _))
    have hint := update_interval f d
    have ih := updates_keep_range rest (AIFormation.Update f d) (by rw [hint]; exact hI)
      hstep.1 (by rw [hint]; exact hstep.2)
      (by intro d' hd'; rw [hint]; exact hd d' (List.mem_cons_of_mem _ hd'))
    rw [hint] at ih
    simpa [List.foldl] using ih

/-- C21: starting from a newly constructed formation (timer 0), after any sequence of
`Update(diff)` calls in which every `diff` is at most the movement interval of the formation,
`GetNextFormationMovementTime` is within `[0, interval]`; and a single `Update` with a `diff`
one above the interval leaves the timer at `-1`, a negative value. -/
theorem C21_timer_range {F : Type} [LinearOrderedField F] (mgr : AIFormationMgr F)
    (owner : Owner) (diffs : List Nat)
    (h : ∀ d ∈ diffs, d ≤ (AIFormation.new mgr owner)._formationMovementInterval) :
    (AIFormation.new mgr owner)._formationMovementTimer = 0
    ∧ 0 ≤ AIFormation.GetNextFormationMovementTime
        (diffs.foldl AIFormation.Update (AIFormation.new mgr owner))
    ∧ AIFormation.GetNextFormationMovementTime
        (diffs.foldl AIFormation.Update (AIFormation.new mgr owner))
        ≤ ((AIFormation.new mgr owner)._formationMovementInterval : Int)
    ∧ AIFormation.GetNextFormationMovementTime
        (AIFormation.Update (AIFormation.new mgr owner)
          ((AIFormation.new mgr owner)._formationMovementInterval + 1)) = -1 := by
  have ht : (AIFormation.new mgr owner)._formationMovementTimer = 0 := by
    simp only [AIFormation.new]
    split
    · split <;> rfl
    · rfl
  have hI := new_interval mgr owner
  have hI16 : (AIFormation.new mgr owner)._formationMovementInterval < 2 ^ 16 := by
    rw [hI]; split <;> decide
  have hr := updates_keep_range diffs (AIFormation.new mgr owner) hI16 (by rw [ht])
    (by rw [ht]; exact Int.ofNat_nonneg _) h
  refine ⟨ht, hr.1, hr.2, ?_⟩
  have hmod : ((AIFormation.new mgr owner)._formationMovementInterval + 1) % 2 ^ 32
      = (AIFormation.new mgr owner)._formationMovementInterval + 1 :=
    Nat.mod_eq_of_lt (by omega)
  simp only [AIFormation.GetNextFormationMovementTime, AIFormation.Update, hmod, ht]
  have hsub : toInt32 (0 - (((AIFormation.new mgr owner)._formationMovementInterval + 1 : Nat)
      : Int)) = 0 - (((AIFormation.new mgr owner)._formationMovementInterval + 1 : Nat) : Int) :=
    toInt32_of_range _ (by omega) (by omega)
  rw [hsub]
  have hle : (0 : Int) - (((AIFormation.new mgr owner)._formationMovementInterval + 1 : Nat)
      : Int) ≤ 0 := by omega
  simp only [hle, if_true]
  rw [toInt32_of_range _ (by omega) (by omega)]
  omega

/-- Witness for C21: a creature-owned formation (interval 1200) updated with 1200, 0, 700 and
500 ms. -/
theorem C21_timer_range_witness :
    0 ≤ AIFormation.GetNextFormationMovementTime
        ([1200, 0, 700, 500].foldl AIFormation.Update (AIFormation.new noSettingsQ creatureOwner))
    ∧ AIFormation.GetNextFormationMovementTime
        ([1200, 0, 700, 500].foldl AIFormation.Update (AIFormation.new noSettingsQ creatureOwner))
        ≤ ((AIFormation.new noSettingsQ creatureOwner)._formationMovementInterval : Int) :=
  have h := C21_timer_range noSettingsQ creatureOwner [1200, 0, 700, 500] (by decide)
  ⟨h.2.1, h.2.2.1⟩

/-! ## Sides and distinctness of the trigonometric slots -/

/-- The fanned-out offsets in closed form, over the reals. -/
theorem fanned_offset_eq (frand : Nat → ℝ → ℝ → ℝ) (f : AIFormation ℝ) (rng i : Nat) :
    (CalculateFormationOffsets ⟨Real.cos, Real.sin, Real.pi, frand⟩
        { f with _formationType := AIFormationType.FannedOutBehindLeader } rng i).1
      = ⟨Real.cos (Real.pi / 2 + i * Real.pi / (fanDivider f._followerData.length : ℝ))
            * f._formationRadius,
          Real.sin (Real.pi / 2 + i * Real.pi / (fanDivider f._followerData.length : ℝ))
            * f._formationRadius, 0, 0⟩
    ∧ (CalculateFormationOffsets ⟨Real.cos, Real.sin, Real.pi, frand⟩
        { f with _formationType := AIFormationType.FannedOutInFrontOfLeader } rng i).1
      = ⟨-(Real.cos (Real.pi / 2 + i * Real.pi / (fanDivider f._followerData.length : ℝ))
            * f._formationRadius),
          Real.sin (Real.pi / 2 + i * Real.pi / (fanDivider f._followerData.length : ℝ))
            * f._formationRadius, 0, 0⟩ := by
  have e : Real.pi / 2 + Real.pi / (fanDivider f._followerData.length : ℝ) * (i : ℝ)
      = Real.pi / 2 + i * Real.pi / (fanDivider f._followerData.length : ℝ) := by ring
  constructor
  · simp only [CalculateFormationOffsets, AIFormationType.FannedOutBehindLeader,
      Position.origin]
    rw [← fanDivider, e]
    simp
  · simp only [CalculateFormationOffsets, AIFormationType.FannedOutInFrontOfLeader,
      AIFormationType.FannedOutBehindLeader, Position.origin]
    rw [← fanDivider, e]
    simp

/-- The circle offsets in closed form, over the reals. -/
theorem circle_offset_eq (frand : Nat → ℝ → ℝ → ℝ) (f : AIFormation ℝ) (rng i : Nat) :
    (CalculateFormationOffsets ⟨Real.cos, Real.sin, Real.pi, frand⟩
        { f with _formationType := AIFormationType.CircleLeader } rng i).1
      = ⟨Real.cos (Real.pi * 2 / (f._followerData.length : ℝ) * i) * f._formationRadius,
          Real.sin (Real.pi * 2 / (f._followerData.length : ℝ) * i) * f._formationRadius,
          0, 0⟩ := by
  simp only [CalculateFormationOffsets, AIFormationType.CircleLeader, Position.origin]

/-- An index below the follower count is at most the fanned-out divisor. -/
theorem le_fanDivider (n i : Nat) (hi : i < n) : i ≤ fanDivider n := by
  unfold fanDivider
  split
  · omega
  · have := Nat.le_max_right 3 (n - 1)
    omega

/-- The angle of a fanned-out slot lies in `[pi/2, 3*pi/2]`. -/
theorem fanned_angle_range (n i : Nat) (hi : i < n) :
    Real.pi / 2 ≤ Real.pi / 2 + i * Real.pi / (fanDivider n : ℝ)
    ∧ Real.pi / 2 + i * Real.pi / (fanDivider n : ℝ) ≤ Real.pi + Real.pi / 2 := by
  have hd : 0 < (fanDivider n : ℝ) := by
    have := fanDivider_ne_zero n (by omega)
    exact_mod_cast Nat.pos_of_ne_zero this
  have hle : (i : ℝ) ≤ (fanDivider n : ℝ) := by exact_mod_cast le_fanDivider n i hi
  have hpi := Real.pi_pos
  have h0 : 0 ≤ (i : ℝ) * Real.pi / (fanDivider n : ℝ) := by positivity
  have h1 : (i : ℝ) * Real.pi / (fanDivider n : ℝ) ≤ Real.pi := by
    rw [div_le_iff₀ hd]
    nlinarith
  constructor <;> linarith

/-- Were `M_PI` the real number pi: for every follower count `n >= 1`, index `i < n` and radius
`r >= 0`, the angle `pi/2 + i*pi/divider` lies in `[pi/2, 3*pi/2]`, the FannedOutBehind offset
has `X <= 0` and the FannedOutInFront offset has `X >= 0`. -/
theorem fanned_sides_of_exact_pi (frand : Nat → ℝ → ℝ → ℝ) (f : AIFormation ℝ) (rng i : Nat)
    (_hn : 1 ≤ f._followerData.length) (hi : i < f._followerData.length)
    (hr : 0 ≤ f._formationRadius) :
    (Real.pi / 2 ≤ Real.pi / 2 + i * Real.pi / (fanDivider f._followerData.length : ℝ)
      ∧ Real.pi / 2 + i * Real.pi / (fanDivider f._followerData.length : ℝ) ≤ 3 * Real.pi / 2)
    ∧ (CalculateFormationOffsets ⟨Real.cos, Real.sin, Real.pi, frand⟩
        { f with _formationType := AIFormationType.FannedOutBehindLeader } rng i).1.m_positionX
        ≤ 0
    ∧ 0 ≤ (CalculateFormationOffsets ⟨Real.cos, Real.sin, Real.pi, frand⟩
        { f with _formationType := AIFormationType.FannedOutInFrontOfLeader }
        rng i).1.m_positionX := by
  obtain ⟨h1, h2⟩ := fanned_angle_range f._followerData.length i hi
  have hcos := Real.cos_nonpos_of_pi_div_two_le_of_le h1 h2
  obtain ⟨hb, ha⟩ := fanned_offset_eq frand f rng i
  refine ⟨⟨h1, by linarith⟩, ?_, ?_⟩
  · rw [hb]
    exact mul_nonpos_of_nonpos_of_nonneg hcos hr
  · rw [ha]
    simp only
    have := mul_nonpos_of_nonpos_of_nonneg hcos hr
    linarith

/-- Two angles less than a full turn apart that give the same point on a circle of positive
radius are equal. -/
theorem angle_eq_of_offsets_eq (a b r : ℝ) (hr : 0 < r)
    (hc : Real.cos a * r = Real.cos b * r) (hs : Real.sin a * r = Real.sin b * r)
    (h1 : -(2 * Real.pi) < a - b) (h2 : a - b < 2 * Real.pi) : a = b := by
  have hc' : Real.cos a = Real.cos b := mul_right_cancel₀ (ne_of_gt hr) hc
  have hs' : Real.sin a = Real.sin b := mul_right_cancel₀ (ne_of_gt hr) hs
  have h : Real.cos (a - b) = 1 := by
    rw [Real.cos_sub, hc', hs']
    have := Real.cos_sq_add_sin_sq b
    nlinarith
  have := (Real.cos_eq_one_iff_of_lt_of_lt h1 h2).mp h
  linarith

/-- C23: for the SingleFile, FannedOutBehind, FannedOutInFront and CircleAroundLeader
topologies with radius `r > 0` and follower count `n >= 1`, two distinct formation indices
`i` and `j` (values of the `uint32` argument), both below `n`, receive distinct offsets. -/
theorem C23_distinct_offsets (frand : Nat → ℝ → ℝ → ℝ) (f : AIFormation ℝ) (rng i j : Nat)
    (type : AIFormationType)
    (hty : type = AIFormationType.SingleFile ∨ type = AIFormationType.FannedOutBehindLeader
      ∨ type = AIFormationType.FannedOutInFrontOfLeader ∨ type = AIFormationType.CircleLeader)
    (hr : 0 < f._formationRadius) (_hn : 1 ≤ f._followerData.length)
    (hi : i < f._followerData.length) (hj : j < f._followerData.length) (hij : i ≠ j)
    (hi32 : i < 2 ^ 32) (hj32 : j < 2 ^ 32) :
    (CalculateFormationOffsets ⟨Real.cos, Real.sin, Real.pi, frand⟩
        { f with _formationType := type } rng i).1
      ≠ (CalculateFormationOffsets ⟨Real.cos, Real.sin, Real.pi, frand⟩
        { f with _formationType := type } rng j).1 := by
  have hpi := Real.pi_pos
  have hn0 : (0 : ℝ) < (f._followerData.length : ℝ) := by exact_mod_cast (by omega : 0 < f._followerData.length)
  have hd : 0 < (fanDivider f._followerData.length : ℝ) := by
    have := fanDivider_ne_zero f._followerData.length (by omega)
    exact_mod_cast Nat.pos_of_ne_zero this
  have hid : (i : ℝ) ≤ (fanDivider f._followerData.length : ℝ) := by
    exact_mod_cast le_fanDivider _ i hi
  have hjd : (j : ℝ) ≤ (fanDivider f._followerData.length : ℝ) := by
    exact_mod_cast le_fanDivider _ j hj
  have hi0 : (0 : ℝ) ≤ (i : ℝ) := Nat.cast_nonneg i
  have hj0 : (0 : ℝ) ≤ (j : ℝ) := Nat.cast_nonneg j
  have hin : (i : ℝ) < (f._followerData.length : ℝ) := by exact_mod_cast hi
  have hjn : (j : ℝ) < (f._followerData.length : ℝ) := by exact_mod_cast hj
  -- the fanned-out angles of `i` and `j` are at most half a turn apart
  have fan_sub : (Real.pi / 2 + i * Real.pi / (fanDivider f._followerData.length : ℝ))
      - (Real.pi / 2 + j * Real.pi / (fanDivider f._followerData.length : ℝ))
      = ((i : ℝ) - j) / (fanDivider f._followerData.length : ℝ) * Real.pi := by
    field_simp; ring
  have fan_lo : -(1 : ℝ) ≤ ((i : ℝ) - j) / (fanDivider f._followerData.length : ℝ) := by
    rw [le_div_iff₀ hd]; linarith
  have fan_hi : ((i : ℝ) - j) / (fanDivider f._followerData.length : ℝ) ≤ 1 := by
    rw [div_le_iff₀ hd]; linarith
  have fan_inj : Real.pi / 2 + i * Real.pi / (fanDivider f._followerData.length : ℝ)
      = Real.pi / 2 + j * Real.pi / (fanDivider f._followerData.length : ℝ) → i = j := by
    intro h
    have h' : (i : ℝ) * Real.pi / (fanDivider f._followerData.length : ℝ)
        = j * Real.pi / (fanDivider f._followerData.length : ℝ) := by linarith
    rw [div_left_inj' (ne_of_gt hd)] at h'
    have := mul_right_cancel₀ (ne_of_gt hpi) h'
    exact_mod_cast this
  intro heq
  apply hij
  rcases hty with rfl | rfl | rfl | rfl
  · -- SingleFile
    simp only [CalculateFormationOffsets, AIFormationType.SingleFile, Position.RelocateOffset,
      Position.origin, Position.mk.injEq] at heq
    have hx := heq.1
    have h2 : -f._formationRadius * (((i + 1) % 2 ^ 32 : Nat) : ℝ)
        = -f._formationRadius * (((j + 1) % 2 ^ 32 : Nat) : ℝ) := by
      linarith
    have h3 := mul_left_cancel₀ (by linarith : -f._formationRadius ≠ 0) h2
    have h4 : (i + 1) % 2 ^ 32 = (j + 1) % 2 ^ 32 := by exact_mod_cast h3
    omega
  · -- FannedOutBehind
    rw [(fanned_offset_eq frand f rng i).1, (fanned_offset_eq frand f rng j).1] at heq
    simp only [Position.mk.injEq] at heq
    apply fan_inj
    apply angle_eq_of_offsets_eq _ _ _ hr heq.1 heq.2.1
    · rw [fan_sub]
      have := mul_le_mul_of_nonneg_right fan_lo (le_of_lt hpi)
      linarith
    · rw [fan_sub]
      have := mul_le_mul_of_nonneg_right fan_hi (le_of_lt hpi)
      linarith
  · -- FannedOutInFront
    rw [(fanned_offset_eq frand f rng i).2, (fanned_offset_eq frand f rng j).2] at heq
    simp only [Position.mk.injEq] at heq
    apply fan_inj
    apply angle_eq_of_offsets_eq _ _ _ hr (neg_injective heq.1) heq.2.1
    · rw [fan_sub]
      have := mul_le_mul_of_nonneg_right fan_lo (le_of_lt hpi)
      linarith
    · rw [fan_sub]
      have := mul_le_mul_of_nonneg_right fan_hi (le_of_lt hpi)
      linarith
  · -- CircleAroundLeader
    rw [circle_offset_eq, circle_offset_eq] at heq
    simp only [Position.mk.injEq] at heq
    have circ_sub : Real.pi * 2 / (f._followerData.length : ℝ) * i
        - Real.pi * 2 / (f._followerData.length : ℝ) * j
        = ((i : ℝ) - j) / (f._followerData.length : ℝ) * (2 * Real.pi) := by
      field_simp; ring
    have c_lo : -(1 : ℝ) < ((i : ℝ) - j) / (f._followerData.length : ℝ) := by
      rw [lt_div_iff₀ hn0]; linarith
    have c_hi : ((i : ℝ) - j) / (f._followerData.length : ℝ) < 1 := by
      rw [div_lt_iff₀ hn0]; linarith
    have h2pi : (0 : ℝ) < 2 * Real.pi := by linarith
    have b1 : -(2 * Real.pi) < Real.pi * 2 / (f._followerData.length : ℝ) * i
        - Real.pi * 2 / (f._followerData.length : ℝ) * j := by
      rw [circ_sub]
      have := mul_lt_mul_of_pos_right c_lo h2pi
      linarith
    have b2 : Real.pi * 2 / (f._followerData.length : ℝ) * i
        - Real.pi * 2 / (f._followerData.length : ℝ) * j < 2 * Real.pi := by
      rw [circ_sub]
      have := mul_lt_mul_of_pos_right c_hi h2pi
      linarith
    have h := angle_eq_of_offsets_eq _ _ _ hr heq.1 heq.2.1 b1 b2
    have hstep : Real.pi * 2 / (f._followerData.length : ℝ) ≠ 0 := by positivity
    have := mul_left_cancel₀ hstep h
    exact_mod_cast this

/-- Witness for C23: three followers on a circle of radius 2; indices 0 and 2. -/
theorem C23_distinct_offsets_witness :
    ((0 : ℝ) < 2 ∧ 0 ≠ 2 ∧ 2 < 2 ^ 32) ∧
    (CalculateFormationOffsets (⟨Real.cos, Real.sin, Real.pi, fun _ _ _ => 0⟩ : Libm ℝ)
      ⟨1, [FormationFollower.new 1 0, FormationFollower.new 2 0, FormationFollower.new 3 0],
        AIFormationType.CircleLeader, 2, 0, 1200⟩ 0 0).1
      ≠ (CalculateFormationOffsets (⟨Real.cos, Real.sin, Real.pi, fun _ _ _ => 0⟩ : Libm ℝ)
      ⟨1, [FormationFollower.new 1 0, FormationFollower.new 2 0, FormationFollower.new 3 0],
        AIFormationType.CircleLeader, 2, 0, 1200⟩ 0 2).1 :=
  ⟨⟨by norm_num, by decide, by norm_num⟩,
    C23_distinct_offsets (fun _ _ _ => 0)
      ⟨1, [FormationFollower.new 1 0, FormationFollower.new 2 0, FormationFollower.new 3 0],
        AIFormationType.SingleFile, 2, 0, 1200⟩ 0 0 2 AIFormationType.CircleLeader
      (Or.inr (Or.inr (Or.inr rfl))) (by norm_num) (by simp) (by simp) (by simp) (by decide)
      (by norm_num) (by norm_num)⟩

/-- Witness for C2: radius 2, index 4; the offset is `(-10, 0)`. -/
theorem C2_singleFile_offset_witness :
    4 + 1 < 2 ^ 32 ∧
    (CalculateFormationOffsets libmQ
      { (⟨1, [], AIFormationType.Random, 2, 0, 1200⟩ : AIFormation ℚ) with
        _formationType := AIFormationType.SingleFile } 0 4).1
      = ⟨-2 * ((4 : Nat) + 1), 0, 0, 0⟩ :=
  ⟨by norm_num,
    C2_singleFile_offset libmQ ⟨1, [], AIFormationType.Random, 2, 0, 1200⟩ 0 4 (by norm_num)⟩

/-- C2 as stated fails at the largest `uint32` index: with radius 1 the claim gives
`(-4294967296, 0)` at index `4294967295`, while `targetFormationIndex + 1` wraps to `0` and the
offset returned is `(0, 0)`. -/
theorem C2_index_successor_wraps :
    (CalculateFormationOffsets libmQ
      (⟨1, [], AIFormationType.SingleFile, 1, 0, 1200⟩ : AIFormation ℚ) 0 4294967295).1
      = ⟨0, 0, 0, 0⟩ := by
  simp [CalculateFormationOffsets, AIFormationType.SingleFile, Position.RelocateOffset,
    Position.origin]

/-- The constant `float(M_PI)` lies above pi, by less than `10^-7`. -/
theorem float_M_PI_bounds :
    Real.pi < ((float_M_PI : ℚ) : ℝ) ∧ ((float_M_PI : ℚ) : ℝ) - Real.pi < 1 / 10000000
    ∧ (3 : ℝ) < ((float_M_PI : ℚ) : ℝ) := by
  have h1 := Real.pi_gt_d20
  have h2 := Real.pi_lt_d20
  have hp : ((float_M_PI : ℚ) : ℝ) = 13176795 / 4194304 := by
    simp [float_M_PI]
  rw [hp]
  refine ⟨?_, ?_, ?_⟩
  · norm_num at h2 ⊢; linarith
  · norm_num at h1 ⊢; linarith
  · norm_num

/-- The fanned-out offsets in closed form, for any value `P` of the constant `M_PI`. -/
theorem fanned_offset_eq_of (P : ℝ) (frand : Nat → ℝ → ℝ → ℝ) (f : AIFormation ℝ) (rng i : Nat) :
    (CalculateFormationOffsets ⟨Real.cos, Real.sin, P, frand⟩
        { f with _formationType := AIFormationType.FannedOutBehindLeader } rng i).1
      = ⟨Real.cos (P / 2 + P / (fanDivider f._followerData.length : ℝ) * i)
            * f._formationRadius,
          Real.sin (P / 2 + P / (fanDivider f._followerData.length : ℝ) * i)
            * f._formationRadius, 0, 0⟩
    ∧ (CalculateFormationOffsets ⟨Real.cos, Real.sin, P, frand⟩
        { f with _formationType := AIFormationType.FannedOutInFrontOfLeader } rng i).1
      = ⟨-(Real.cos (P / 2 + P / (fanDivider f._followerData.length : ℝ) * i)
            * f._formationRadius),
          Real.sin (P / 2 + P / (fanDivider f._followerData.length : ℝ) * i)
            * f._formationRadius, 0, 0⟩ := by
  constructor
  · simp only [CalculateFormationOffsets, AIFormationType.FannedOutBehindLeader,
      Position.origin]
    rw [← fanDivider]
    simp
  · simp only [CalculateFormationOffsets, AIFormationType.FannedOutInFrontOfLeader,
      AIFormationType.FannedOutBehindLeader, Position.origin]
    rw [← fanDivider]
    simp

/-- Between `P/2` and `3*P/2`, for `P` above pi by less than `10^-7`, the cosine is at most
`2 * 10^-7`. -/
theorem cos_le_of_le_three_halves (P θ : ℝ) (hP : Real.pi ≤ P) (hP2 : P - Real.pi < 1 / 10000000)
    (h1 : P / 2 ≤ θ) (h2 : θ ≤ 3 * P / 2) : Real.cos θ ≤ 2 / 10000000 := by
  have hpi := Real.pi_pos
  by_cases h : θ ≤ Real.pi + Real.pi / 2
  · have := Real.cos_nonpos_of_pi_div_two_le_of_le (by linarith : Real.pi / 2 ≤ θ) h
    linarith
  · have hc : Real.cos θ = Real.sin (θ - 3 * Real.pi / 2) := by
      rw [show θ - 3 * Real.pi / 2 = (θ - Real.pi) - Real.pi / 2 by ring,
        Real.sin_sub_pi_div_two, Real.cos_sub_pi, neg_neg]
    rw [hc]
    have := Real.sin_le (by linarith : 0 ≤ θ - 3 * Real.pi / 2)
    linarith

/-- At `3*P/2`, for `P` above pi by less than `10^-7`, the cosine is positive. -/
theorem cos_pos_three_halves (P : ℝ) (hP : Real.pi < P) (hP2 : P - Real.pi < 1 / 10000000) :
    0 < Real.cos (3 * P / 2) := by
  have hpi := Real.pi_gt_three
  have hc : Real.cos (3 * P / 2) = Real.sin (3 * P / 2 - 3 * Real.pi / 2) := by
    rw [show 3 * P / 2 - 3 * Real.pi / 2 = (3 * P / 2 - Real.pi) - Real.pi / 2 by ring,
      Real.sin_sub_pi_div_two, Real.cos_sub_pi, neg_neg]
  rw [hc]
  exact Real.sin_pos_of_pos_of_lt_pi (by linarith) (by linarith)


/-- The fanned-out divisor is at most the follower count, or 3. -/
theorem fanDivider_le (n : Nat) (h : 1 ≤ n) : fanDivider n ≤ max 3 n := by
  unfold fanDivider
  split <;> omega

/-- C22, amended: with the constant `float(M_PI)` the code uses (arithmetic, `std::cos` and
`std::sin` exact), for every follower count `n >= 1`, index `i < n` and radius `r >= 0`, the
angle `float(M_PI)/2 + i*float(M_PI)/divider` lies in `[float(M_PI)/2, 3*float(M_PI)/2]`, the
FannedOutBehind offset has `X <= 10^-6 * r` and the FannedOutInFront offset has
`X >= -10^-6 * r`; and for an index below the divisor (every index of up to three followers,
every index but the last of four or more) of at most `10^6` followers the FannedOutBehind
offset has `X <= 0` and the FannedOutInFront offset has `X >= 0`. -/
theorem C22_fanned_sides_float_pi (frand : Nat → ℝ → ℝ → ℝ) (f : AIFormation ℝ) (rng i : Nat)
    (_hn : 1 ≤ f._followerData.length) (hi : i < f._followerData.length)
    (hr : 0 ≤ f._formationRadius) :
    (((float_M_PI : ℚ) : ℝ) / 2
        ≤ ((float_M_PI : ℚ) : ℝ) / 2
          + ((float_M_PI : ℚ) : ℝ) / (fanDivider f._followerData.length : ℝ) * i
      ∧ ((float_M_PI : ℚ) : ℝ) / 2
          + ((float_M_PI : ℚ) : ℝ) / (fanDivider f._followerData.length : ℝ) * i
        ≤ 3 * ((float_M_PI : ℚ) : ℝ) / 2)
    ∧ (CalculateFormationOffsets ⟨Real.cos, Real.sin, ((float_M_PI : ℚ) : ℝ), frand⟩
        { f with _formationType := AIFormationType.FannedOutBehindLeader } rng i).1.m_positionX
        ≤ 1 / 1000000 * f._formationRadius
    ∧ -(1 / 1000000 * f._formationRadius)
        ≤ (CalculateFormationOffsets ⟨Real.cos, Real.sin, ((float_M_PI : ℚ) : ℝ), frand⟩
          { f with _formationType := AIFormationType.FannedOutInFrontOfLeader }
          rng i).1.m_positionX
    ∧ (i < fanDivider f._followerData.length → f._followerData.length ≤ 1000000 →
        (CalculateFormationOffsets ⟨Real.cos, Real.sin, ((float_M_PI : ℚ) : ℝ), frand⟩
          { f with _formationType := AIFormationType.FannedOutBehindLeader }
          rng i).1.m_positionX ≤ 0
        ∧ 0 ≤ (CalculateFormationOffsets ⟨Real.cos, Real.sin, ((float_M_PI : ℚ) : ℝ), frand⟩
          { f with _formationType := AIFormationType.FannedOutInFrontOfLeader }
          rng i).1.m_positionX) := by
  obtain ⟨hP1, hP2, hP3⟩ := float_M_PI_bounds
  obtain ⟨hb, ha⟩ := fanned_offset_eq_of ((float_M_PI : ℚ) : ℝ) frand f rng i
  have hpi := Real.pi_pos
  have hd : 0 < (fanDivider f._followerData.length : ℝ) := by
    have := fanDivider_ne_zero f._followerData.length (by omega)
    exact_mod_cast Nat.pos_of_ne_zero this
  have hle : (i : ℝ) ≤ (fanDivider f._followerData.length : ℝ) := by
    exact_mod_cast le_fanDivider _ i hi
  have hi0 : (0 : ℝ) ≤ (i : ℝ) := Nat.cast_nonneg i
  have hq0 : 0 < ((float_M_PI : ℚ) : ℝ) / (fanDivider f._followerData.length : ℝ) :=
    div_pos (by linarith) hd
  have hqd : ((float_M_PI : ℚ) : ℝ) / (fanDivider f._followerData.length : ℝ)
      * (fanDivider f._followerData.length : ℝ) = ((float_M_PI : ℚ) : ℝ) :=
    div_mul_cancel₀ _ (ne_of_gt hd)
  have h0 : 0 ≤ ((float_M_PI : ℚ) : ℝ) / (fanDivider f._followerData.length : ℝ) * i :=
    mul_nonneg (le_of_lt hq0) hi0
  have h1 : ((float_M_PI : ℚ) : ℝ) / (fanDivider f._followerData.length : ℝ) * i
      ≤ ((float_M_PI : ℚ) : ℝ) := by
    have := mul_le_mul_of_nonneg_left hle (le_of_lt hq0)
    linarith
  have hrange : ((float_M_PI : ℚ) : ℝ) / 2
        ≤ ((float_M_PI : ℚ) : ℝ) / 2
          + ((float_M_PI : ℚ) : ℝ) / (fanDivider f._followerData.length : ℝ) * i
      ∧ ((float_M_PI : ℚ) : ℝ) / 2
          + ((float_M_PI : ℚ) : ℝ) / (fanDivider f._followerData.length : ℝ) * i
        ≤ 3 * ((float_M_PI : ℚ) : ℝ) / 2 := by
    constructor <;> linarith
  have hcos := cos_le_of_le_three_halves _ _ (le_of_lt hP1) hP2 hrange.1 hrange.2
  have hX := mul_le_mul_of_nonneg_right
    (le_trans hcos (by norm_num : (2 : ℝ) / 10000000 ≤ 1 / 1000000)) hr
  refine ⟨hrange, ?_, ?_, ?_⟩
  · rw [hb]; exact hX
  · rw [ha]; simp only; linarith
  · intro hlt hn
    have hlt' : (i : ℝ) + 1 ≤ (fanDivider f._followerData.length : ℝ) := by
      exact_mod_cast hlt
    have hdn : (fanDivider f._followerData.length : ℝ) ≤ 1000000 := by
      have := fanDivider_le f._followerData.length (by omega)
      have h3 : fanDivider f._followerData.length ≤ 1000000 := by omega
      exact_mod_cast h3
    have hq1 : 3 / 1000000
        < ((float_M_PI : ℚ) : ℝ) / (fanDivider f._followerData.length : ℝ) := by
      rw [lt_div_iff₀ hd]; linarith
    have h2 : ((float_M_PI : ℚ) : ℝ) / (fanDivider f._followerData.length : ℝ) * (i + 1)
        ≤ ((float_M_PI : ℚ) : ℝ) := by
      have := mul_le_mul_of_nonneg_left hlt' (le_of_lt hq0)
      linarith
    have hcos0 := Real.cos_nonpos_of_pi_div_two_le_of_le
      (by linarith : Real.pi / 2 ≤ ((float_M_PI : ℚ) : ℝ) / 2
          + ((float_M_PI : ℚ) : ℝ) / (fanDivider f._followerData.length : ℝ) * i)
      (by linarith : ((float_M_PI : ℚ) : ℝ) / 2
          + ((float_M_PI : ℚ) : ℝ) / (fanDivider f._followerData.length : ℝ) * i
            ≤ Real.pi + Real.pi / 2)
    have hX0 := mul_nonpos_of_nonpos_of_nonneg hcos0 hr
    constructor
    · rw [hb]; exact hX0
    · rw [ha]; simp only; linarith

/-- Witness for C22: three followers fanned out with radius 2, index 2. -/
theorem C22_fanned_sides_float_pi_witness :
    (CalculateFormationOffsets
      (⟨Real.cos, Real.sin, ((float_M_PI : ℚ) : ℝ), fun _ _ _ => 0⟩ : Libm ℝ)
      ⟨1, [FormationFollower.new 1 0, FormationFollower.new 2 0, FormationFollower.new 3 0],
        AIFormationType.FannedOutBehindLeader, 2, 0, 1200⟩ 0 2).1.m_positionX
      ≤ 1 / 1000000 * 2 :=
  (C22_fanned_sides_float_pi (fun _ _ _ => 0)
    ⟨1, [FormationFollower.new 1 0, FormationFollower.new 2 0, FormationFollower.new 3 0],
      AIFormationType.SingleFile, 2, 0, 1200⟩ 0 2 (by simp) (by simp) (by norm_num)).2.1

/-- C22 as stated fails at the last index of four followers: with radius 2 the angle of index 3
is `3*float(M_PI)/2`, above `3*pi/2`, and the FannedOutBehind offset has `X > 0`. -/
theorem C22_last_index_crosses :
    0 < (CalculateFormationOffsets
      (⟨Real.cos, Real.sin, ((float_M_PI : ℚ) : ℝ), fun _ _ _ => 0⟩ : Libm ℝ)
      ⟨1, [FormationFollower.new 1 0, FormationFollower.new 2 0, FormationFollower.new 3 0,
          FormationFollower.new 4 0],
        AIFormationType.FannedOutBehindLeader, 2, 0, 1200⟩ 0 3).1.m_positionX := by
  obtain ⟨hP1, hP2, _⟩ := float_M_PI_bounds
  have hc := cos_pos_three_halves _ hP1 hP2
  have hb := (fanned_offset_eq_of ((float_M_PI : ℚ) : ℝ) (fun _ _ _ => 0)
    ⟨1, [FormationFollower.new 1 0, FormationFollower.new 2 0, FormationFollower.new 3 0,
          FormationFollower.new 4 0],
        AIFormationType.FannedOutBehindLeader, 2, 0, 1200⟩ 0 3).1
  have hd : fanDivider 4 = 3 := by decide
  have hang : ((float_M_PI : ℚ) : ℝ) / 2 + ((float_M_PI : ℚ) : ℝ) / ((3 : Nat) : ℝ) * 3
      = 3 * ((float_M_PI : ℚ) : ℝ) / 2 := by
    push_cast; ring
  simp only [List.length_cons, List.length_nil] at hb
  norm_num at hb
  rw [hb, hd, hang]
  exact mul_pos hc (by norm_num)

end AIFormations
